import Mathlib

/-!
# osin-mysql: the storage contract over a relational store

A shallow embedding of `mysql.go` (package `mysql`, the osin storage for MySQL).

* The database behind `s.db` is a value of `Storage`: the five tables of `schemas`
  as lists of rows in insertion order, the AUTO_INCREMENT counter of the expires
  table, and the transactions that were begun and never finished.
* Every statement the Go code sends is named by a `Stmt`; a `Backend` says for which
  statements the driver reports a failure (lost connection, timeout, ...).  Duplicate
  primary keys are decided by the tables themselves.
* Strings are compared exactly and stored whole, timestamps are integers (seconds),
  and one call reads one clock value `now`.
* `gopher_utils.ToStr` belongs to another repository; it is a parameter `ToStr`.
* `LoadAccess` calls itself on `prev_access_token`; the embedding carries a bound on
  the call depth and answers `none` when the bound is used up.
* A transaction holds the rows inserted through it; only an accepted `Commit` turns them
  into rows of the tables.  A `Commit` or `Rollback` that the driver reports as failed
  ends the transaction without applying anything.  A transaction that is never finished
  stays in `open_tx`; the locks it holds are not part of the embedding.
* A method call on a nil interface value is a Go panic; it is recorded as the error
  `NilDereference`.
-/

set_option linter.dupNamespace false
set_option linter.unusedVariables false

namespace OsinMysql

/-! ## Values of the osin library that the storage reads and writes -/

/-- Go values of type `interface{}` handed to the storage as user data. -/
inductive Iface where
  | nil
  | str (s : String)
  | int (n : Int)
  | bool (b : Bool)
  deriving DecidableEq, Repr

/-- The struct `osin.DefaultClient`, the only `osin.Client` the storage builds. -/
structure Client where
  Id : String
  Secret : String
  RedirectUri : String
  UserData : Iface
  deriving DecidableEq, Repr

/-- The struct `osin.AuthorizeData`, with the fields the storage touches.
`Client` is an interface value: `none` is Go's nil. -/
structure AuthorizeData where
  Client : Option Client
  Code : String
  ExpiresIn : Int
  Scope : String
  RedirectUri : String
  State : String
  CreatedAt : Int
  UserData : Iface
  deriving DecidableEq, Repr

/-- The struct `osin.AccessData`; `AuthorizeData` and `AccessData` are pointers,
`none` is nil. -/
structure AccessData where
  Client : Option Client
  AuthorizeData : Option AuthorizeData
  AccessData : Option AccessData
  AccessToken : String
  RefreshToken : String
  ExpiresIn : Int
  Scope : String
  RedirectUri : String
  CreatedAt : Int
  UserData : Iface
  deriving Repr

/-- Modelled from the spec: `ExpireAt` is a method of the osin library, not of this
repository; the data model gives `expire_at = created_at + expires_in`. -/
def AuthorizeData.ExpireAt (d : AuthorizeData) : Int := d.CreatedAt + d.ExpiresIn

/-- Modelled from the spec: `ExpireAt` is a method of the osin library, not of this
repository; the data model gives `expire_at = created_at + expires_in`. -/
def AccessData.ExpireAt (d : OsinMysql.AccessData) : Int := d.CreatedAt + d.ExpiresIn

/-- The zero value `&osin.AuthorizeData{}` that `SaveAccess` starts from. -/
def AuthorizeData.zero : AuthorizeData :=
  { Client := none, Code := "", ExpiresIn := 0, Scope := "", RedirectUri := "",
    State := "", CreatedAt := 0, UserData := Iface.nil }

/-! ## Statements, driver failures and errors -/

/-- The statements sent to the database, each with the key it is parameterised by. -/
inductive Stmt where
  | SelectClient (id : String)
  | UpdateClient (id : String)
  | InsertClient (id : String)
  | DeleteClient (id : String)
  | InsertAuthorize (code : String)
  | SelectAuthorize (code : String)
  | DeleteAuthorize (code : String)
  | Begin
  | InsertRefresh (refresh : String)
  | InsertAccess (token : String)
  | Rollback
  | Commit
  | SelectAccess (token : String)
  | DeleteAccess (token : String)
  | SelectRefresh (refresh : String)
  | DeleteRefresh (refresh : String)
  | InsertExpires (code_or_token : String)
  | DeleteExpires (code_or_token : String)
  deriving DecidableEq, Repr

/-- The driver: `bk q = true` when it reports a failure for statement `q`. -/
abbrev Backend := Stmt → Bool

/-- The driver that never fails. -/
def reliable : Backend := fun _ => false

/-- The error values that leave the storage. -/
inductive Err where
  | ErrNotFound
  | Driver
  | Duplicate
  | Wrap (cause : Err) (message : String)
  | New (message : String)
  | TokenExpired (expireAt : Int)
  | NilDereference
  deriving DecidableEq, Repr

/-- Result of an INSERT: a driver failure, or a duplicate primary key, or success. -/
def insertErr (bk : Backend) (q : Stmt) (dup : Bool) : Option Err :=
  if bk q then some Err.Driver else if dup then some Err.Duplicate else none

/-! ## The five tables -/

/-- Row of `{prefix}_client`, primary key `id`. -/
structure ClientRow where
  id : String
  secret : String
  extra : String
  redirect_uri : String
  deriving DecidableEq, Repr

/-- Row of `{prefix}_authorize`, primary key `code`. -/
structure AuthorizeRow where
  client : String
  code : String
  expires_in : Int
  scope : String
  redirect_uri : String
  state : String
  extra : String
  created_at : Int
  deriving DecidableEq, Repr

/-- Row of `{prefix}_access`, primary key `access_token`. -/
structure AccessRow where
  client : String
  code : String
  prev_access_token : String
  access_token : String
  refresh_token : String
  expires_in : Int
  scope : String
  redirect_uri : String
  extra : String
  created_at : Int
  deriving DecidableEq, Repr

/-- Row of `{prefix}_refresh`, primary key `refresh_token`. -/
structure RefreshRow where
  access_token : String
  refresh_token : String
  deriving DecidableEq, Repr

/-- Row of `{prefix}_expires`, primary key the AUTO_INCREMENT `id`; `code_or_token`
is indexed but not unique. -/
structure ExpiresRow where
  id : Nat
  code_or_token : String
  expires_at : Int
  deriving DecidableEq, Repr

/-- A `*sql.Tx`: the rows inserted through it that are not committed yet, and whether
it has been committed or rolled back. -/
structure Tx where
  refresh : List RefreshRow
  access : List AccessRow
  done : Bool
  deriving DecidableEq, Repr

/-- The database behind a `*Storage`: committed rows of the five tables, the next
AUTO_INCREMENT value of the expires table, and the transactions left unfinished. -/
structure Storage where
  client : List ClientRow
  authorize : List AuthorizeRow
  access : List AccessRow
  refresh : List RefreshRow
  expires : List ExpiresRow
  auto_increment : Nat
  open_tx : List Tx
  deriving DecidableEq, Repr

/-- A fresh database right after `CreateSchemas`: five empty tables. -/
def Storage.empty : Storage :=
  { client := [], authorize := [], access := [], refresh := [], expires := [],
    auto_increment := 1, open_tx := [] }

/-- The call `tx.Rollback()`: the uncommitted rows are dropped, the transaction is done. -/
def Tx.Rollback (tx : Tx) : Tx := { refresh := [], access := [], done := true }

/-! ## Client registry -/

/-- GetClient loads the client by id. -/
def GetClient (bk : Backend) (s : Storage) (id : String) : Except Err Client :=
  if bk (Stmt.SelectClient id) then Except.error (Err.Wrap Err.Driver "GetClient err")
  else
    match s.client.find? (fun r => r.id == id) with
    | none => Except.error Err.ErrNotFound
    | some r =>
      Except.ok { Id := r.id, Secret := r.secret, RedirectUri := r.redirect_uri,
                  UserData := Iface.str r.extra }

/-- UpdateClient replaces secret, redirect_uri and extra of the row with the id of `c`. -/
def UpdateClient (bk : Backend) (ToStr : Iface → String) (s : Storage) (c : Client) :
    Storage × Option Err :=
  let data := ToStr c.UserData
  if bk (Stmt.UpdateClient c.Id) then (s, some (Err.Wrap Err.Driver "UpdateClient err"))
  else
    ({ s with client := s.client.map (fun r =>
          if r.id == c.Id then
            { r with secret := c.Secret, redirect_uri := c.RedirectUri, extra := data }
          else r) }, none)

/-- CreateClient inserts the client row. -/
def CreateClient (bk : Backend) (ToStr : Iface → String) (s : Storage) (c : Client) :
    Storage × Option Err :=
  let data := ToStr c.UserData
  match insertErr bk (Stmt.InsertClient c.Id) (s.client.any (fun r => r.id == c.Id)) with
  | some err => (s, some (Err.Wrap err "CreateClient err"))
  | none =>
    ({ s with client := s.client ++
          [{ id := c.Id, secret := c.Secret, redirect_uri := c.RedirectUri, extra := data }] },
     none)

/-- RemoveClient deletes the client row with the given id. -/
def RemoveClient (bk : Backend) (s : Storage) (id : String) : Storage × Option Err :=
  if bk (Stmt.DeleteClient id) then (s, some (Err.Wrap Err.Driver "RemoveClient err"))
  else ({ s with client := s.client.filter (fun r => r.id != id) }, none)

/-- CreateClientWithInformation builds an `osin.DefaultClient` from raw fields. -/
def CreateClientWithInformation (id secret redirectURI : String) (userData : Iface) : Client :=
  { Id := id, Secret := secret, RedirectUri := redirectURI, UserData := userData }

/-! ## Expiry index -/

/-- AddExpireAtData inserts a row into the expires table; it goes through `s.db`,
never through a transaction. -/
def AddExpireAtData (bk : Backend) (s : Storage) (code_or_token : String) (expireAt : Int) :
    Storage × Option Err :=
  if bk (Stmt.InsertExpires code_or_token) then
    (s, some (Err.Wrap Err.Driver "AddExpireAtData err"))
  else
    ({ s with
        expires := s.expires ++
          [{ id := s.auto_increment, code_or_token := code_or_token, expires_at := expireAt }],
        auto_increment := s.auto_increment + 1 }, none)

/-- RemoveExpireAtData deletes every row of the expires table with the given key. -/
def RemoveExpireAtData (bk : Backend) (s : Storage) (code_or_token : String) :
    Storage × Option Err :=
  if bk (Stmt.DeleteExpires code_or_token) then
    (s, some (Err.Wrap Err.Driver "RemoveExpireAtData err"))
  else
    ({ s with expires := s.expires.filter (fun r => r.code_or_token != code_or_token) }, none)

/-! ## Authorization records -/

/-- SaveAuthorize inserts the authorize row, then registers its expiry entry. -/
def SaveAuthorize (bk : Backend) (ToStr : Iface → String) (s : Storage) (data : AuthorizeData) :
    Storage × Option Err :=
  let extra := ToStr data.UserData
  match data.Client with
  | none => (s, some Err.NilDereference)
  | some c =>
    match insertErr bk (Stmt.InsertAuthorize data.Code)
        (s.authorize.any (fun r => r.code == data.Code)) with
    | some err => (s, some (Err.Wrap err "SaveAuthorize err"))
    | none =>
      let s1 := { s with authorize := s.authorize ++
        [{ client := c.Id, code := data.Code, expires_in := data.ExpiresIn,
           scope := data.Scope, redirect_uri := data.RedirectUri, state := data.State,
           created_at := data.CreatedAt, extra := extra }] }
      match AddExpireAtData bk s1 data.Code data.ExpireAt with
      | (s2, some err) => (s2, some (Err.Wrap err "SaveAuthorize AddExpireAtData err"))
      | (s2, none) => (s2, none)

/-- LoadAuthorize looks up AuthorizeData by a code, loads its client, then checks
the expiration against the clock. -/
def LoadAuthorize (bk : Backend) (s : Storage) (now : Int) (code : String) :
    Except Err AuthorizeData :=
  if bk (Stmt.SelectAuthorize code) then Except.error (Err.Wrap Err.Driver "LoadAuthorize err")
  else
    match s.authorize.find? (fun r => r.code == code) with
    | none => Except.error Err.ErrNotFound
    | some r =>
      let data : AuthorizeData :=
        { Client := none, Code := r.code, ExpiresIn := r.expires_in, Scope := r.scope,
          RedirectUri := r.redirect_uri, State := r.state, CreatedAt := r.created_at,
          UserData := Iface.str r.extra }
      match GetClient bk s r.client with
      | Except.error err => Except.error err
      | Except.ok c =>
        if data.ExpireAt < now then Except.error (Err.TokenExpired data.ExpireAt)
        else Except.ok { data with Client := some c }

/-- RemoveAuthorize deletes the authorize row, then the expiry entries of the code. -/
def RemoveAuthorize (bk : Backend) (s : Storage) (code : String) : Storage × Option Err :=
  if bk (Stmt.DeleteAuthorize code) then (s, some (Err.Wrap Err.Driver "RemoveAuthorize err"))
  else
    let s1 := { s with authorize := s.authorize.filter (fun r => r.code != code) }
    match RemoveExpireAtData bk s1 code with
    | (s2, some err) => (s2, some (Err.Wrap err "RemoveAuthorize err"))
    | (s2, none) => (s2, none)

/-! ## Access records, refresh index, token rotation -/

/-- The `return` of a function that began `tx`: a transaction that was neither
committed nor rolled back stays behind on its connection. -/
def Storage.leave (s : Storage) (tx : Tx) : Storage :=
  if tx.done then s else { s with open_tx := s.open_tx ++ [tx] }

/-- The call `tx.Commit()` when the driver accepts it: the rows of the transaction
become rows of the tables. -/
def Storage.commit (s : Storage) (tx : Tx) : Storage :=
  { s with refresh := s.refresh ++ tx.refresh, access := s.access ++ tx.access }

/-- The helper saveRefresh: inserts the refresh row through the transaction and rolls
the transaction back when the insert fails. -/
def saveRefresh (bk : Backend) (s : Storage) (tx : Tx) (refresh access : String) :
    Tx × Option Err :=
  match insertErr bk (Stmt.InsertRefresh refresh)
      ((s.refresh ++ tx.refresh).any (fun r => r.refresh_token == refresh)) with
  | some err =>
    if bk Stmt.Rollback then (tx.Rollback, some (Err.Wrap Err.Driver "saveRefresh err"))
    else (tx.Rollback, some (Err.Wrap err "saveRefresh err"))
  | none =>
    ({ tx with refresh := tx.refresh ++
        [{ refresh_token := refresh, access_token := access }] }, none)

/-- SaveAccess writes AccessData: begin, refresh row (when the refresh token is not
blank), nil check of the client, access row, expiry entry through `s.db`, commit. -/
def SaveAccess (bk : Backend) (ToStr : Iface → String) (s : Storage) (data : AccessData) :
    Storage × Option Err :=
  let prevAccessToken :=
    match data.AccessData with
    | some prev => prev.AccessToken
    | none => ""
  let authorizeData :=
    match data.AuthorizeData with
    | some a => a
    | none => AuthorizeData.zero
  let extra := ToStr data.UserData
  if bk Stmt.Begin then (s, some (Err.Wrap Err.Driver "SaveAccess err"))
  else
    let tx0 : Tx := { refresh := [], access := [], done := false }
    match (if data.RefreshToken != "" then
             saveRefresh bk s tx0 data.RefreshToken data.AccessToken
           else (tx0, none)) with
    | (tx1, some err) => (s.leave tx1, some err)
    | (tx1, none) =>
      match data.Client with
      | none => (s.leave tx1, some (Err.New "data.Client must not be nil"))
      | some c =>
        match insertErr bk (Stmt.InsertAccess data.AccessToken)
            ((s.access ++ tx1.access).any (fun r => r.access_token == data.AccessToken)) with
        | some err =>
          if bk Stmt.Rollback then
            (s.leave tx1.Rollback, some (Err.Wrap Err.Driver "SaveAccess err"))
          else (s.leave tx1.Rollback, some (Err.Wrap err "SaveAccess insert err"))
        | none =>
          let tx2 : Tx := { tx1 with access := tx1.access ++
            [{ client := c.Id, code := authorizeData.Code,
               prev_access_token := prevAccessToken, access_token := data.AccessToken,
               refresh_token := data.RefreshToken, expires_in := data.ExpiresIn,
               scope := data.Scope, redirect_uri := data.RedirectUri,
               created_at := data.CreatedAt, extra := extra }] }
          match AddExpireAtData bk s data.AccessToken data.ExpireAt with
          | (s1, some err) => (s1.leave tx2, some (Err.Wrap err "AddExpireAtData err"))
          | (s1, none) =>
            if bk Stmt.Commit then
              (s1.leave { tx2 with done := true },
               some (Err.Wrap Err.Driver "AddExpireAtData commit err"))
            else ((s1.commit tx2).leave { tx2 with done := true }, none)

/-- LoadAccess retrieves access data by token: the row, its client, then the
authorize data and the previous access data, whose errors are dropped.  The first
argument bounds the depth of the calls on `prev_access_token`; `none` means the bound
was reached before the call returned. -/
def LoadAccess (bk : Backend) (s : Storage) (now : Int) :
    Nat → String → Option (Except Err AccessData)
  | 0, _ => none
  | depth + 1, access_token =>
    if bk (Stmt.SelectAccess access_token) then
      some (Except.error (Err.Wrap Err.Driver "LoadAccess err"))
    else
      match s.access.find? (fun r => r.access_token == access_token) with
      | none => some (Except.error Err.ErrNotFound)
      | some r =>
        match GetClient bk s r.client with
        | Except.error err => some (Except.error err)
        | Except.ok client =>
          let authorize := (LoadAuthorize bk s now r.code).toOption
          match LoadAccess bk s now depth r.prev_access_token with
          | none => none
          | some prevAccess =>
            some (Except.ok
              { Client := some client, AuthorizeData := authorize,
                AccessData := prevAccess.toOption, AccessToken := r.access_token,
                RefreshToken := r.refresh_token, ExpiresIn := r.expires_in,
                Scope := r.scope, RedirectUri := r.redirect_uri,
                CreatedAt := r.created_at, UserData := Iface.str r.extra })

/-- RemoveAccess deletes the access row, then the expiry entries of the token. -/
def RemoveAccess (bk : Backend) (s : Storage) (access_token : String) : Storage × Option Err :=
  if bk (Stmt.DeleteAccess access_token) then (s, some (Err.Wrap Err.Driver "RemoveAccess err"))
  else
    let s1 := { s with access := s.access.filter (fun r => r.access_token != access_token) }
    match RemoveExpireAtData bk s1 access_token with
    | (s2, some err) => (s2, some (Err.Wrap err "RemoveExpireAtData err"))
    | (s2, none) => (s2, none)

/-- LoadRefresh resolves the refresh token to its access token and delegates to
`LoadAccess` (same depth bound). -/
def LoadRefresh (bk : Backend) (s : Storage) (now : Int) (depth : Nat) (refresh_token : String) :
    Option (Except Err AccessData) :=
  if bk (Stmt.SelectRefresh refresh_token) then
    some (Except.error (Err.Wrap Err.Driver "LoadRefresh err"))
  else
    match s.refresh.find? (fun r => r.refresh_token == refresh_token) with
    | none => some (Except.error Err.ErrNotFound)
    | some r => LoadAccess bk s now depth r.access_token

/-- RemoveRefresh deletes the refresh row. -/
def RemoveRefresh (bk : Backend) (s : Storage) (refresh_token : String) : Storage × Option Err :=
  if bk (Stmt.DeleteRefresh refresh_token) then (s, some (Err.Wrap Err.Driver "RemoveRefresh err"))
  else ({ s with refresh := s.refresh.filter (fun r => r.refresh_token != refresh_token) }, none)

/-! ## Sequences of calls on one storage -/

/-- The calls of the storage that can change the database. -/
inductive Call where
  | CreateClient (c : Client)
  | UpdateClient (c : Client)
  | RemoveClient (id : String)
  | SaveAuthorize (data : AuthorizeData)
  | RemoveAuthorize (code : String)
  | SaveAccess (data : AccessData)
  | RemoveAccess (access_token : String)
  | RemoveRefresh (refresh_token : String)

/-- One call against the database, under the driver behaviour `bk`. -/
def Call.exec (bk : Backend) (ToStr : Iface → String) (s : Storage) : Call → Storage × Option Err
  | Call.CreateClient c => OsinMysql.CreateClient bk ToStr s c
  | Call.UpdateClient c => OsinMysql.UpdateClient bk ToStr s c
  | Call.RemoveClient id => OsinMysql.RemoveClient bk s id
  | Call.SaveAuthorize data => OsinMysql.SaveAuthorize bk ToStr s data
  | Call.RemoveAuthorize code => OsinMysql.RemoveAuthorize bk s code
  | Call.SaveAccess data => OsinMysql.SaveAccess bk ToStr s data
  | Call.RemoveAccess access_token => OsinMysql.RemoveAccess bk s access_token
  | Call.RemoveRefresh refresh_token => OsinMysql.RemoveRefresh bk s refresh_token

/-- The database after a sequence of calls, each with its own driver behaviour;
a failed call leaves whatever it had written. -/
def run (ToStr : Iface → String) : Storage → List (Backend × Call) → Storage
  | s, [] => s
  | s, (bk, c) :: rest => run ToStr (c.exec bk ToStr s).1 rest

/-- Every call of the sequence returns a nil error. -/
def allSucceed (ToStr : Iface → String) : Storage → List (Backend × Call) → Bool
  | _, [] => true
  | s, (bk, c) :: rest =>
    (c.exec bk ToStr s).2.isNone && allSucceed ToStr (c.exec bk ToStr s).1 rest

/-- The previous access token that `SaveAccess` writes for `data`. -/
def prevTokenOf (data : AccessData) : String :=
  match data.AccessData with
  | some prev => prev.AccessToken
  | none => ""

/-- A remove call that stays within its own kind of key: `RemoveAuthorize` is not given
the token of a stored access record, `RemoveAccess` not the code of a stored
authorization record. -/
def Call.ownKind (s : Storage) : Call → Bool
  | Call.RemoveAuthorize code => !(s.access.any (fun r => r.access_token == code))
  | Call.RemoveAccess access_token => !(s.authorize.any (fun r => r.code == access_token))
  | _ => true

/-- Issuance order: a `SaveAccess` whose token differs from its own previous token and
is not the previous token of any stored access record. -/
def Call.issuanceOrder (s : Storage) : Call → Bool
  | Call.SaveAccess data =>
    (data.AccessToken != prevTokenOf data) &&
      s.access.all (fun r => r.prev_access_token != data.AccessToken)
  | _ => true

/-- Every call of the sequence satisfies `ok` in the database it is made on. -/
def allCalls (ok : Storage → Call → Bool) (ToStr : Iface → String) :
    Storage → List (Backend × Call) → Bool
  | _, [] => true
  | s, (bk, c) :: rest => ok s c && allCalls ok ToStr (c.exec bk ToStr s).1 rest

/-- The keys of the expires table. -/
def Storage.expiryKeys (s : Storage) : List String := s.expires.map (fun r => r.code_or_token)

/-- The codes of the stored authorization records. -/
def Storage.codes (s : Storage) : List String := s.authorize.map (fun r => r.code)

/-- The tokens of the stored access records. -/
def Storage.tokens (s : Storage) : List String := s.access.map (fun r => r.access_token)

/-! ## Vocabulary for the steps of `SaveAccess` -/

/-- The access row that `SaveAccess` inserts for `data` with client id `cid`. -/
def rowOfAccess (ToStr : Iface → String) (cid : String) (data : AccessData) : AccessRow :=
  { client := cid,
    code := (match data.AuthorizeData with | some a => a | none => AuthorizeData.zero).Code,
    prev_access_token := prevTokenOf data, access_token := data.AccessToken,
    refresh_token := data.RefreshToken, expires_in := data.ExpiresIn,
    scope := data.Scope, redirect_uri := data.RedirectUri,
    created_at := data.CreatedAt, extra := ToStr data.UserData }

/-- Step 1 of `SaveAccess` fails: the refresh token is not blank and its insert is
refused by the driver or by the primary key of the refresh table. -/
def refreshInsertFails (bk : Backend) (s : Storage) (data : AccessData) : Bool :=
  (data.RefreshToken != "") &&
    (bk (Stmt.InsertRefresh data.RefreshToken) ||
      s.refresh.any (fun r => r.refresh_token == data.RefreshToken))

/-- Step 2 of `SaveAccess` fails: the insert of the access row is refused by the driver
or by the primary key of the access table. -/
def accessInsertFails (bk : Backend) (s : Storage) (data : AccessData) : Bool :=
  bk (Stmt.InsertAccess data.AccessToken) ||
    s.access.any (fun r => r.access_token == data.AccessToken)

/-- The transaction of `SaveAccess` after a successful step 1. -/
def txAfterRefresh (data : AccessData) : Tx :=
  { refresh := if data.RefreshToken != "" then
      [{ refresh_token := data.RefreshToken, access_token := data.AccessToken }] else [],
    access := [], done := false }

/-! ## Sample values -/

/-- A serialisation in the manner of the verb `%v`, to run the definitions on examples;
every statement below holds for any `ToStr`. -/
def sampleToStr : Iface → String
  | Iface.nil => "<nil>"
  | Iface.str s => s
  | Iface.int n => toString n
  | Iface.bool b => toString b

/-- The client of the end-to-end scenario. -/
def client1 : Client :=
  { Id := "c1", Secret := "s1", RedirectUri := "http://x/cb", UserData := Iface.nil }

/-- A second client. -/
def client2 : Client :=
  { Id := "c2", Secret := "s2", RedirectUri := "http://y/cb", UserData := Iface.nil }

/-- The authorization data of the end-to-end scenario, with an integer as user data. -/
def authorize1 : AuthorizeData :=
  { Client := some client1, Code := "code1", ExpiresIn := 600, Scope := "read",
    RedirectUri := "http://x/cb", State := "st", CreatedAt := 1000, UserData := Iface.int 42 }

/-- An access record of `client1` with token `a1` and refresh token `r1`. -/
def accessA : AccessData :=
  { Client := some client1, AuthorizeData := none, AccessData := none, AccessToken := "a1",
    RefreshToken := "r1", ExpiresIn := 3600, Scope := "read", RedirectUri := "http://x/cb",
    CreatedAt := 1000, UserData := Iface.nil }

/-- An access record of `client1` that rotates `accessA` out. -/
def accessB : AccessData :=
  { Client := some client1, AuthorizeData := none, AccessData := some accessA,
    AccessToken := "b1", RefreshToken := "r2", ExpiresIn := 3600, Scope := "read",
    RedirectUri := "http://x/cb", CreatedAt := 2000, UserData := Iface.nil }

/-- The database of the samples once `client1` is registered. -/
def store1 : Storage := (CreateClient reliable sampleToStr Storage.empty client1).1

/-- The client that `GetClient` returns for `client1`. -/
def registered1 : Client :=
  { Id := "c1", Secret := "s1", RedirectUri := "http://x/cb", UserData := Iface.str "<nil>" }

/-- Register `client1`, save `authorize1`, then remove the client again. -/
def callsOrphanCode : List (Backend × Call) :=
  [(reliable, Call.CreateClient client1), (reliable, Call.SaveAuthorize authorize1),
   (reliable, Call.RemoveClient "c1")]

/-- The database of the samples once `client1` is registered and `accessA` is saved. -/
def store2 : Storage := (SaveAccess reliable sampleToStr store1 accessA).1

/-- An access record without client whose refresh token `r1` is the one of `accessA`. -/
def accessNoClient : AccessData :=
  { Client := none, AuthorizeData := none, AccessData := none, AccessToken := "z1",
    RefreshToken := "r1", ExpiresIn := 3600, Scope := "read", RedirectUri := "http://x/cb",
    CreatedAt := 3000, UserData := Iface.nil }

/-- A driver that fails on the commit and on nothing else. -/
def commitFails : Backend := fun q => q == Stmt.Commit

/-- An access record of `client2` that rotates `accessA` out. -/
def accessB2 : AccessData :=
  { Client := some client2, AuthorizeData := none, AccessData := some accessA,
    AccessToken := "b1", RefreshToken := "r2", ExpiresIn := 3600, Scope := "read",
    RedirectUri := "http://y/cb", CreatedAt := 2000, UserData := Iface.nil }

/-- Register both clients, save `accessA`, save `accessB2` with `accessA` as its previous
access data, then remove `client2`. -/
def callsOrphanAccess : List (Backend × Call) :=
  [(reliable, Call.CreateClient client1), (reliable, Call.CreateClient client2),
   (reliable, Call.SaveAccess accessA), (reliable, Call.SaveAccess accessB2),
   (reliable, Call.RemoveClient "c2")]

/-! ## Invariants -/

/-- The expires table and the stored records are synchronized: a string is the key of an
expiry entry exactly when it is the code of a stored authorization record or the token
of a stored access record. -/
def ExpirySynchronized (s : Storage) : Prop :=
  ∀ x : String, x ∈ s.expiryKeys ↔ (x ∈ s.codes ∨ x ∈ s.tokens)

/-- The chain of previous access tokens is a backward chain: some rank on tokens goes
strictly down from every stored access record to the stored record its
`prev_access_token` names. -/
def ChainRanked (s : Storage) : Prop :=
  ∃ rank : String → Nat, ∀ r ∈ s.access, ∀ r2 ∈ s.access,
    r2.access_token = r.prev_access_token → rank r2.access_token < rank r.access_token

/-- Authorization data with code `x`. -/
def authorizeX : AuthorizeData :=
  { Client := some client1, Code := "x", ExpiresIn := 600, Scope := "read",
    RedirectUri := "http://x/cb", State := "st", CreatedAt := 1000, UserData := Iface.nil }

/-- Access data with token `x` and no refresh token. -/
def accessX : AccessData :=
  { Client := some client1, AuthorizeData := none, AccessData := none, AccessToken := "x",
    RefreshToken := "", ExpiresIn := 3600, Scope := "read", RedirectUri := "http://x/cb",
    CreatedAt := 1000, UserData := Iface.nil }

/-- Save an authorization record and an access record under the same string `x`, then
remove the authorization code. -/
def callsSharedKey : List (Backend × Call) :=
  [(reliable, Call.SaveAuthorize authorizeX), (reliable, Call.SaveAccess accessX),
   (reliable, Call.RemoveAuthorize "x")]

/-- An access record that takes the token `a1` again, with `accessB` as previous. -/
def accessA2 : AccessData :=
  { Client := some client1, AuthorizeData := none, AccessData := some accessB,
    AccessToken := "a1", RefreshToken := "r3", ExpiresIn := 3600, Scope := "read",
    RedirectUri := "http://x/cb", CreatedAt := 3000, UserData := Iface.nil }

/-- Save `accessA`, rotate it out by `accessB`, remove it, then save `accessA2` under the
token of `accessA` with `accessB` as previous. -/
def callsCycle : List (Backend × Call) :=
  [(reliable, Call.CreateClient client1), (reliable, Call.SaveAccess accessA),
   (reliable, Call.SaveAccess accessB), (reliable, Call.RemoveAccess "a1"),
   (reliable, Call.SaveAccess accessA2)]

/-- A sequence in issuance order: `accessA`, then `accessB` rotating it out, then the
removal of `accessA`. -/
def callsRotation : List (Backend × Call) :=
  [(reliable, Call.CreateClient client1), (reliable, Call.SaveAccess accessA),
   (reliable, Call.SaveAccess accessB), (reliable, Call.RemoveAccess "a1")]

/-- Save an authorization record and an access record under different strings, then
remove the authorization code. -/
def callsOwnKeys : List (Backend × Call) :=
  [(reliable, Call.SaveAuthorize authorizeX), (reliable, Call.SaveAccess accessA),
   (reliable, Call.RemoveAuthorize "x")]

/-! # Properties -/

/-! ## The paths of `SaveAccess` -/

theorem saveRefresh_step_fail (bk : Backend) (s : Storage) (data : AccessData)
    (h : refreshInsertFails bk s data = true) :
    ∃ cause, (if data.RefreshToken != "" then
        saveRefresh bk s { refresh := [], access := [], done := false }
          data.RefreshToken data.AccessToken
      else (({ refresh := [], access := [], done := false } : Tx), (none : Option Err))) =
      ({ refresh := [], access := [], done := true },
       some (Err.Wrap cause "saveRefresh err")) := by
  unfold refreshInsertFails at h
  cases hrne : (data.RefreshToken != "") <;>
  cases hb1 : bk (Stmt.InsertRefresh data.RefreshToken) <;>
  cases hd1 : s.refresh.any (fun r => r.refresh_token == data.RefreshToken) <;>
  cases hrb : bk Stmt.Rollback <;>
  simp only [hrne, hb1, hd1, Bool.false_and, Bool.true_and, Bool.or_false, Bool.or_true,
    Bool.false_eq_true] at h <;>
  simp [saveRefresh, insertErr, Tx.Rollback, hrne, hb1, hd1, hrb]

theorem saveRefresh_step_ok (bk : Backend) (s : Storage) (data : AccessData)
    (h : refreshInsertFails bk s data = false) :
    (if data.RefreshToken != "" then
        saveRefresh bk s { refresh := [], access := [], done := false }
          data.RefreshToken data.AccessToken
      else (({ refresh := [], access := [], done := false } : Tx), (none : Option Err))) =
      (txAfterRefresh data, none) := by
  unfold refreshInsertFails at h
  cases hrne : (data.RefreshToken != "") <;>
  cases hb1 : bk (Stmt.InsertRefresh data.RefreshToken) <;>
  cases hd1 : s.refresh.any (fun r => r.refresh_token == data.RefreshToken) <;>
  simp only [hrne, hb1, hd1, Bool.false_and, Bool.true_and, Bool.or_false, Bool.or_true,
    Bool.true_eq_false] at h <;>
  simp [saveRefresh, insertErr, txAfterRefresh, hrne, hb1, hd1]

theorem SaveAccess_path_begin (bk : Backend) (ToStr : Iface → String) (s : Storage)
    (data : AccessData) (hb : bk Stmt.Begin = true) :
    SaveAccess bk ToStr s data = (s, some (Err.Wrap Err.Driver "SaveAccess err")) := by
  simp only [SaveAccess, hb, ↓reduceIte]

theorem SaveAccess_path_refresh (bk : Backend) (ToStr : Iface → String) (s : Storage)
    (data : AccessData) (hb : bk Stmt.Begin = false) (h : refreshInsertFails bk s data = true) :
    ∃ cause, SaveAccess bk ToStr s data = (s, some (Err.Wrap cause "saveRefresh err")) := by
  obtain ⟨cause, he⟩ := saveRefresh_step_fail bk s data h
  refine ⟨cause, ?_⟩
  simp only [SaveAccess, hb, Bool.false_eq_true, ↓reduceIte, he, Storage.leave]

theorem SaveAccess_path_nil (bk : Backend) (ToStr : Iface → String) (s : Storage)
    (data : AccessData) (hb : bk Stmt.Begin = false) (h : refreshInsertFails bk s data = false)
    (hc : data.Client = none) :
    SaveAccess bk ToStr s data =
      ({ s with open_tx := s.open_tx ++ [txAfterRefresh data] },
       some (Err.New "data.Client must not be nil")) := by
  have he := saveRefresh_step_ok bk s data h
  simp only [SaveAccess, hb, Bool.false_eq_true, ↓reduceIte, he, Storage.leave, hc]
  simp [txAfterRefresh]

theorem SaveAccess_path_access (bk : Backend) (ToStr : Iface → String) (s : Storage)
    (data : AccessData) (c : Client) (hb : bk Stmt.Begin = false)
    (h : refreshInsertFails bk s data = false) (hc : data.Client = some c)
    (h2 : accessInsertFails bk s data = true) :
    ∃ err, SaveAccess bk ToStr s data = (s, some err) := by
  have he := saveRefresh_step_ok bk s data h
  unfold accessInsertFails at h2
  cases hb2 : bk (Stmt.InsertAccess data.AccessToken) <;>
  cases hd2 : s.access.any (fun r => r.access_token == data.AccessToken) <;>
  cases hrb : bk Stmt.Rollback <;>
  simp only [hb2, hd2, Bool.or_false, Bool.or_true, Bool.false_eq_true] at h2 <;>
  simp only [SaveAccess, hb, Bool.false_eq_true, ↓reduceIte, he, hc] <;>
  simp [Storage.leave, insertErr, txAfterRefresh, Tx.Rollback, hb2, hd2, hrb]

theorem SaveAccess_path_expires (bk : Backend) (ToStr : Iface → String) (s : Storage)
    (data : AccessData) (c : Client) (hb : bk Stmt.Begin = false)
    (h : refreshInsertFails bk s data = false) (hc : data.Client = some c)
    (h2 : accessInsertFails bk s data = false)
    (h3 : bk (Stmt.InsertExpires data.AccessToken) = true) :
    SaveAccess bk ToStr s data =
      ({ s with open_tx := s.open_tx ++
          [{ txAfterRefresh data with access := [rowOfAccess ToStr c.Id data] }] },
       some (Err.Wrap (Err.Wrap Err.Driver "AddExpireAtData err") "AddExpireAtData err")) := by
  have he := saveRefresh_step_ok bk s data h
  unfold accessInsertFails at h2
  cases hb2 : bk (Stmt.InsertAccess data.AccessToken) <;>
  cases hd2 : s.access.any (fun r => r.access_token == data.AccessToken) <;>
  simp only [hb2, hd2, Bool.or_false, Bool.or_true, Bool.true_eq_false] at h2
  simp only [SaveAccess, hb, Bool.false_eq_true, ↓reduceIte, he, hc]
  simp [Storage.leave, insertErr, txAfterRefresh, AddExpireAtData, rowOfAccess, prevTokenOf,
    hb2, hd2, h3]

theorem SaveAccess_path_commit (bk : Backend) (ToStr : Iface → String) (s : Storage)
    (data : AccessData) (c : Client) (hb : bk Stmt.Begin = false)
    (h : refreshInsertFails bk s data = false) (hc : data.Client = some c)
    (h2 : accessInsertFails bk s data = false)
    (h3 : bk (Stmt.InsertExpires data.AccessToken) = false) (h4 : bk Stmt.Commit = true) :
    SaveAccess bk ToStr s data =
      ({ s with
          expires := s.expires ++
            [{ id := s.auto_increment, code_or_token := data.AccessToken,
               expires_at := data.ExpireAt }],
          auto_increment := s.auto_increment + 1 },
       some (Err.Wrap Err.Driver "AddExpireAtData commit err")) := by
  have he := saveRefresh_step_ok bk s data h
  unfold accessInsertFails at h2
  cases hb2 : bk (Stmt.InsertAccess data.AccessToken) <;>
  cases hd2 : s.access.any (fun r => r.access_token == data.AccessToken) <;>
  simp only [hb2, hd2, Bool.or_false, Bool.or_true, Bool.true_eq_false] at h2
  simp only [SaveAccess, hb, Bool.false_eq_true, ↓reduceIte, he, hc]
  simp [Storage.leave, insertErr, txAfterRefresh, AddExpireAtData, hb2, hd2, h3, h4]

theorem SaveAccess_path_success (bk : Backend) (ToStr : Iface → String) (s : Storage)
    (data : AccessData) (c : Client) (hb : bk Stmt.Begin = false)
    (h : refreshInsertFails bk s data = false) (hc : data.Client = some c)
    (h2 : accessInsertFails bk s data = false)
    (h3 : bk (Stmt.InsertExpires data.AccessToken) = false) (h4 : bk Stmt.Commit = false) :
    SaveAccess bk ToStr s data =
      ({ s with
          refresh := s.refresh ++ (txAfterRefresh data).refresh,
          access := s.access ++ [rowOfAccess ToStr c.Id data],
          expires := s.expires ++
            [{ id := s.auto_increment, code_or_token := data.AccessToken,
               expires_at := data.ExpireAt }],
          auto_increment := s.auto_increment + 1 }, none) := by
  have he := saveRefresh_step_ok bk s data h
  unfold accessInsertFails at h2
  cases hb2 : bk (Stmt.InsertAccess data.AccessToken) <;>
  cases hd2 : s.access.any (fun r => r.access_token == data.AccessToken) <;>
  simp only [hb2, hd2, Bool.or_false, Bool.or_true, Bool.true_eq_false] at h2
  simp only [SaveAccess, hb, Bool.false_eq_true, ↓reduceIte, he, hc]
  simp [Storage.leave, Storage.commit, insertErr, txAfterRefresh, AddExpireAtData, rowOfAccess,
    prevTokenOf, hb2, hd2, h3, h4]

/-! ## Lookups in a table -/

theorem find_append_of_any_false {α : Type} (p : α → Bool) (l m : List α)
    (h : l.any p = false) : (l ++ m).find? p = m.find? p := by
  have hn : l.find? p = none := by
    rw [List.find?_eq_none]
    intro x hx hp
    have : l.any p = true := List.any_eq_true.mpr ⟨x, hx, hp⟩
    rw [h] at this
    exact Bool.false_ne_true this
  rw [List.find?_append, hn]
  rfl

/-! ## Client round trip -/

/-- C4: for every client whose id is not registered yet, `CreateClient` succeeds and
`GetClient` on that id then returns the same id, secret and redirect_uri, with the
user data as the string that `ToStr` made of it (driver accepting both statements). -/
theorem CreateClient_GetClient_roundtrip (bk : Backend) (ToStr : Iface → String)
    (s : Storage) (c : Client)
    (hfresh : s.client.any (fun r => r.id == c.Id) = false)
    (hins : bk (Stmt.InsertClient c.Id) = false)
    (hsel : bk (Stmt.SelectClient c.Id) = false) :
    (CreateClient bk ToStr s c).2 = none ∧
    GetClient bk (CreateClient bk ToStr s c).1 c.Id =
      Except.ok { Id := c.Id, Secret := c.Secret, RedirectUri := c.RedirectUri,
                  UserData := Iface.str (ToStr c.UserData) } := by
  have hcreate : CreateClient bk ToStr s c =
      ({ s with client := s.client ++
          [{ id := c.Id, secret := c.Secret, redirect_uri := c.RedirectUri,
             extra := ToStr c.UserData }] }, none) := by
    simp only [CreateClient, insertErr, hins, hfresh, Bool.false_eq_true, ↓reduceIte]
  rw [hcreate]
  refine ⟨rfl, ?_⟩
  simp only [GetClient, hsel, Bool.false_eq_true, ↓reduceIte]
  rw [find_append_of_any_false _ _ _ hfresh]
  simp

/-- Witness of C4 on the empty database with the client of the end-to-end scenario. -/
theorem CreateClient_GetClient_roundtrip_witness :
    (CreateClient reliable sampleToStr Storage.empty client1).2 = none ∧
    GetClient reliable (CreateClient reliable sampleToStr Storage.empty client1).1 "c1" =
      Except.ok { Id := "c1", Secret := "s1", RedirectUri := "http://x/cb",
                  UserData := Iface.str "<nil>" } :=
  CreateClient_GetClient_roundtrip reliable sampleToStr Storage.empty client1 rfl rfl rfl

theorem SaveAccess_ok (bk : Backend) (ToStr : Iface → String) (s : Storage) (data : AccessData)
    (h : (SaveAccess bk ToStr s data).2 = none) :
    ∃ c, data.Client = some c ∧ refreshInsertFails bk s data = false ∧
      accessInsertFails bk s data = false ∧
      SaveAccess bk ToStr s data =
        ({ s with
            refresh := s.refresh ++ (txAfterRefresh data).refresh,
            access := s.access ++ [rowOfAccess ToStr c.Id data],
            expires := s.expires ++
              [{ id := s.auto_increment, code_or_token := data.AccessToken,
                 expires_at := data.ExpireAt }],
            auto_increment := s.auto_increment + 1 }, none) := by
  cases hb : bk Stmt.Begin
  swap
  · rw [SaveAccess_path_begin bk ToStr s data hb] at h; cases h
  cases h1 : refreshInsertFails bk s data
  swap
  · obtain ⟨err, he⟩ := SaveAccess_path_refresh bk ToStr s data hb h1
    rw [he] at h; cases h
  cases hc : data.Client with
  | none => rw [SaveAccess_path_nil bk ToStr s data hb h1 hc] at h; cases h
  | some c =>
    cases h2 : accessInsertFails bk s data
    swap
    · obtain ⟨err, he⟩ := SaveAccess_path_access bk ToStr s data c hb h1 hc h2
      rw [he] at h; cases h
    cases h3 : bk (Stmt.InsertExpires data.AccessToken)
    swap
    · rw [SaveAccess_path_expires bk ToStr s data c hb h1 hc h2 h3] at h; cases h
    cases h4 : bk Stmt.Commit
    swap
    · rw [SaveAccess_path_commit bk ToStr s data c hb h1 hc h2 h3 h4] at h; cases h
    exact ⟨c, rfl, rfl, rfl, SaveAccess_path_success bk ToStr s data c hb h1 hc h2 h3 h4⟩

/-! ## Refresh flow -/

/-- C1: after a successful `SaveAccess` of a record with access token `a` and a
non-blank refresh token `r`, `LoadRefresh r` and `LoadAccess a` give the same result
(same clock value, same bound on the call depth, driver answering the refresh lookup). -/
theorem LoadRefresh_eq_LoadAccess (bk : Backend) (ToStr : Iface → String) (s : Storage)
    (data : AccessData) (now : Int) (depth : Nat)
    (hr : data.RefreshToken ≠ "")
    (hsave : (SaveAccess bk ToStr s data).2 = none)
    (hsel : bk (Stmt.SelectRefresh data.RefreshToken) = false) :
    LoadRefresh bk (SaveAccess bk ToStr s data).1 now depth data.RefreshToken =
      LoadAccess bk (SaveAccess bk ToStr s data).1 now depth data.AccessToken := by
  obtain ⟨c, hc, h1, h2, heq⟩ := SaveAccess_ok bk ToStr s data hsave
  have hne : (data.RefreshToken != "") = true := by simpa using hr
  have hdup : s.refresh.any (fun r => r.refresh_token == data.RefreshToken) = false := by
    unfold refreshInsertFails at h1
    rw [hne] at h1
    cases hd : s.refresh.any (fun r => r.refresh_token == data.RefreshToken)
    · rfl
    · rw [hd] at h1; simp at h1
  rw [heq]
  simp only [LoadRefresh, hsel, Bool.false_eq_true, ↓reduceIte]
  rw [find_append_of_any_false _ _ _ hdup]
  simp [txAfterRefresh, hne]

/-- Witness of C1: `accessA` saved on a database where its client is registered. -/
theorem LoadRefresh_eq_LoadAccess_witness :
    accessA.RefreshToken ≠ "" ∧
    LoadRefresh reliable
        (SaveAccess reliable sampleToStr
          (CreateClient reliable sampleToStr Storage.empty client1).1 accessA).1 1500 3 "r1" =
      LoadAccess reliable
        (SaveAccess reliable sampleToStr
          (CreateClient reliable sampleToStr Storage.empty client1).1 accessA).1 1500 3 "a1" :=
  ⟨by decide,
   LoadRefresh_eq_LoadAccess reliable sampleToStr
    (CreateClient reliable sampleToStr Storage.empty client1).1 accessA 1500 3
    (by decide) rfl rfl⟩

/-! ## Authorization round trip and expiry -/

theorem GetClient_congr (bk : Backend) (s t : Storage) (id : String)
    (h : t.client = s.client) : GetClient bk t id = GetClient bk s id := by
  simp only [GetClient, h]

theorem SaveAuthorize_success (bk : Backend) (ToStr : Iface → String) (s : Storage)
    (data : AuthorizeData) (c : Client) (hc : data.Client = some c)
    (hfresh : s.authorize.any (fun r => r.code == data.Code) = false)
    (hins : bk (Stmt.InsertAuthorize data.Code) = false)
    (hexp : bk (Stmt.InsertExpires data.Code) = false) :
    SaveAuthorize bk ToStr s data =
      ({ s with
          authorize := s.authorize ++
            [{ client := c.Id, code := data.Code, expires_in := data.ExpiresIn,
               scope := data.Scope, redirect_uri := data.RedirectUri, state := data.State,
               created_at := data.CreatedAt, extra := ToStr data.UserData }],
          expires := s.expires ++
            [{ id := s.auto_increment, code_or_token := data.Code,
               expires_at := data.ExpireAt }],
          auto_increment := s.auto_increment + 1 }, none) := by
  simp only [SaveAuthorize, hc, insertErr, hins, hfresh, Bool.false_eq_true, ↓reduceIte,
    AddExpireAtData, hexp]

/-- C2, as amended: for authorization data whose client is registered and whose code is
not stored yet, `SaveAuthorize` succeeds and `LoadAuthorize` of the code at a time before
`ExpireAt` returns code, expires_in, scope, redirect_uri, state and created_at as saved,
the user data as the string that `ToStr` made of it, and the registered client. -/
theorem SaveAuthorize_LoadAuthorize_roundtrip (bk : Backend) (ToStr : Iface → String)
    (s : Storage) (data : AuthorizeData) (c registered : Client) (now : Int)
    (hc : data.Client = some c)
    (hreg : GetClient bk s c.Id = Except.ok registered)
    (hfresh : s.authorize.any (fun r => r.code == data.Code) = false)
    (hins : bk (Stmt.InsertAuthorize data.Code) = false)
    (hexp : bk (Stmt.InsertExpires data.Code) = false)
    (hsel : bk (Stmt.SelectAuthorize data.Code) = false)
    (hnow : now < data.ExpireAt) :
    (SaveAuthorize bk ToStr s data).2 = none ∧
    LoadAuthorize bk (SaveAuthorize bk ToStr s data).1 now data.Code =
      Except.ok { data with Client := some registered,
                            UserData := Iface.str (ToStr data.UserData) } := by
  rw [SaveAuthorize_success bk ToStr s data c hc hfresh hins hexp]
  refine ⟨rfl, ?_⟩
  simp only [LoadAuthorize, hsel, Bool.false_eq_true, ↓reduceIte]
  rw [find_append_of_any_false _ _ _ hfresh]
  simp only [List.find?_cons, beq_self_eq_true]
  simp only [GetClient] at hreg ⊢
  rw [hreg]
  have hn : ¬ (data.CreatedAt + data.ExpiresIn < now) := by
    unfold AuthorizeData.ExpireAt at hnow
    omega
  simp only [AuthorizeData.ExpireAt, hn, ↓reduceIte]

/-- Witness of C2 (amended) on the end-to-end scenario, one second after creation. -/
theorem SaveAuthorize_LoadAuthorize_roundtrip_witness :
    (SaveAuthorize reliable sampleToStr store1 authorize1).2 = none ∧
    LoadAuthorize reliable (SaveAuthorize reliable sampleToStr store1 authorize1).1 1001 "code1" =
      Except.ok { authorize1 with Client := some registered1, UserData := Iface.str "42" } :=
  SaveAuthorize_LoadAuthorize_roundtrip reliable sampleToStr store1 authorize1 client1
    registered1 1001 rfl rfl rfl rfl rfl rfl (by decide)

/-- Counterexample to C2 as stated: `authorize1` carries the integer 42 as user data, its
client is registered, its code is new and the clock is before `ExpireAt`; the loaded
record carries the string "42", so it is not `authorize1` with the client filled in. -/
theorem user_data_serialized_counterexample :
    authorize1.Client = some client1 ∧
    GetClient reliable store1 client1.Id = Except.ok registered1 ∧
    store1.authorize = [] ∧
    (1001 : Int) < authorize1.ExpireAt ∧
    (SaveAuthorize reliable sampleToStr store1 authorize1).2 = none ∧
    LoadAuthorize reliable (SaveAuthorize reliable sampleToStr store1 authorize1).1 1001
        authorize1.Code ≠
      Except.ok { authorize1 with Client := some registered1 } := by
  refine ⟨rfl, rfl, rfl, by decide, rfl, ?_⟩
  intro h
  have hv : LoadAuthorize reliable (SaveAuthorize reliable sampleToStr store1 authorize1).1 1001
      authorize1.Code =
      Except.ok { authorize1 with Client := some registered1, UserData := Iface.str "42" } := rfl
  rw [hv] at h
  injection h with h
  have hu := congrArg AuthorizeData.UserData h
  exact absurd hu (by decide)

theorem find_filter_bne {α : Type} (key : α → String) (k : String) (l : List α) :
    (l.filter (fun r => key r != k)).find? (fun r => key r == k) = none := by
  rw [List.find?_eq_none]
  intro x hx hp
  have h1 := (List.mem_filter.mp hx).2
  simp only [bne_iff_ne, ne_eq] at h1
  exact h1 (by simpa using hp)

theorem RemoveAuthorize_ok (bk : Backend) (s : Storage) (code : String)
    (h : (RemoveAuthorize bk s code).2 = none) :
    RemoveAuthorize bk s code =
      ({ s with
          authorize := s.authorize.filter (fun r => r.code != code),
          expires := s.expires.filter (fun r => r.code_or_token != code) }, none) := by
  revert h
  cases h1 : bk (Stmt.DeleteAuthorize code) <;> cases h2 : bk (Stmt.DeleteExpires code) <;>
    simp [RemoveAuthorize, RemoveExpireAtData, h1, h2]

/-- C3, as amended: when the authorization record with code `code` is stored and its
client is registered, `LoadAuthorize` at a time after `created_at + expires_in` returns
the expired-token error, which is not `ErrNotFound`; the load is a read, so every later
load of the same database answers the same, and after a successful `RemoveAuthorize`
of the code the load answers `ErrNotFound`. -/
theorem LoadAuthorize_expired (bk : Backend) (s : Storage) (now : Int) (code : String)
    (r : AuthorizeRow) (registered : Client)
    (hrow : s.authorize.find? (fun x => x.code == code) = some r)
    (hreg : GetClient bk s r.client = Except.ok registered)
    (hsel : bk (Stmt.SelectAuthorize code) = false)
    (hexp : r.created_at + r.expires_in < now) :
    LoadAuthorize bk s now code =
      Except.error (Err.TokenExpired (r.created_at + r.expires_in)) ∧
    Err.TokenExpired (r.created_at + r.expires_in) ≠ Err.ErrNotFound ∧
    (∀ later : Int, now ≤ later →
      LoadAuthorize bk s later code =
        Except.error (Err.TokenExpired (r.created_at + r.expires_in))) ∧
    (∀ (bk2 : Backend) (later : Int), (RemoveAuthorize bk2 s code).2 = none →
      LoadAuthorize bk (RemoveAuthorize bk2 s code).1 later code =
        Except.error Err.ErrNotFound) := by
  have hload : ∀ t : Int, r.created_at + r.expires_in < t →
      LoadAuthorize bk s t code =
        Except.error (Err.TokenExpired (r.created_at + r.expires_in)) := by
    intro t ht
    simp only [LoadAuthorize, hsel, Bool.false_eq_true, ↓reduceIte, hrow, hreg,
      AuthorizeData.ExpireAt, ht]
  refine ⟨hload now hexp, by simp, fun later hl => hload later (by omega), ?_⟩
  intro bk2 later hrm
  rw [RemoveAuthorize_ok bk2 s code hrm]
  simp only [LoadAuthorize, hsel, Bool.false_eq_true, ↓reduceIte]
  rw [find_filter_bne (fun r : AuthorizeRow => r.code) code s.authorize]

/-- Witness of C3 (amended): the end-to-end scenario, 700 seconds after creation. -/
theorem LoadAuthorize_expired_witness :
    LoadAuthorize reliable (SaveAuthorize reliable sampleToStr store1 authorize1).1 1700 "code1" =
      Except.error (Err.TokenExpired 1600) ∧
    LoadAuthorize reliable
      (RemoveAuthorize reliable (SaveAuthorize reliable sampleToStr store1 authorize1).1
        "code1").1 1700 "code1" = Except.error Err.ErrNotFound :=
  have h := LoadAuthorize_expired reliable
    (SaveAuthorize reliable sampleToStr store1 authorize1).1 1700 "code1"
    { client := "c1", code := "code1", expires_in := 600, scope := "read",
      redirect_uri := "http://x/cb", state := "st", extra := "42", created_at := 1000 }
    registered1 rfl rfl rfl (by decide)
  ⟨h.1, h.2.2.2 reliable 1700 rfl⟩

/-- Counterexample to C3 as stated: after `client1` is removed the database still holds
the authorization record `code1`, which expired at 1600; `LoadAuthorize` at 1700 answers
`ErrNotFound`, not the expired-token error. -/
theorem orphan_code_not_found_counterexample :
    (run sampleToStr Storage.empty callsOrphanCode).codes = ["code1"] ∧
    (run sampleToStr Storage.empty callsOrphanCode).authorize.map
      (fun r => r.created_at + r.expires_in) = [1600] ∧
    LoadAuthorize reliable (run sampleToStr Storage.empty callsOrphanCode) 1700 "code1" =
      Except.error Err.ErrNotFound := by
  refine ⟨rfl, rfl, rfl⟩

/-! ## Failures inside `SaveAccess` -/

/-- C6: once the transaction has begun, if the insert into the refresh index fails
(step 1), or step 1 passes, the client is not nil and the insert of the access row fails
(step 2), then `SaveAccess` returns an error and the database is exactly the one before
the call: refresh index and access table unchanged, no transaction left unfinished. -/
theorem SaveAccess_insert_failure_rolls_back (bk : Backend) (ToStr : Iface → String)
    (s : Storage) (data : AccessData)
    (hb : bk Stmt.Begin = false)
    (hfail : refreshInsertFails bk s data = true ∨
      (refreshInsertFails bk s data = false ∧ data.Client ≠ none ∧
        accessInsertFails bk s data = true)) :
    (SaveAccess bk ToStr s data).1 = s ∧
    (SaveAccess bk ToStr s data).1.refresh = s.refresh ∧
    (SaveAccess bk ToStr s data).1.access = s.access ∧
    (SaveAccess bk ToStr s data).2 ≠ none := by
  rcases hfail with h1 | ⟨h1, hc, h2⟩
  · obtain ⟨cause, he⟩ := SaveAccess_path_refresh bk ToStr s data hb h1
    rw [he]
    simp
  · cases hcl : data.Client with
    | none => exact absurd hcl hc
    | some c =>
      obtain ⟨err, he⟩ := SaveAccess_path_access bk ToStr s data c hb h1 hcl h2
      rw [he]
      simp

/-- Witness of C6: on the database holding `accessA`, a record reusing the refresh token
`r1` fails at step 1 and `accessA` itself, without refresh token, fails at step 2. -/
theorem SaveAccess_insert_failure_rolls_back_witness :
    (SaveAccess reliable sampleToStr store2 { accessB with RefreshToken := "r1" }).1 = store2 ∧
    (SaveAccess reliable sampleToStr store2 { accessA with RefreshToken := "" }).1 = store2 :=
  ⟨(SaveAccess_insert_failure_rolls_back reliable sampleToStr store2
      { accessB with RefreshToken := "r1" } rfl (Or.inl rfl)).1,
   (SaveAccess_insert_failure_rolls_back reliable sampleToStr store2
      { accessA with RefreshToken := "" } rfl (Or.inr ⟨rfl, by simp [accessA], rfl⟩)).1⟩

/-- C7, as amended: for access data whose client is nil, `SaveAccess` returns an error and
changes no table.  The error is "data.Client must not be nil" when the transaction has
begun and step 1 passed (blank refresh token, or refresh row inserted); when the insert
into the refresh index fails, as for a refresh token that is already indexed, the error
is the wrapped "saveRefresh err" instead. -/
theorem SaveAccess_nil_client_error (bk : Backend) (ToStr : Iface → String) (s : Storage)
    (data : AccessData) (hc : data.Client = none) :
    (SaveAccess bk ToStr s data).2 ≠ none ∧
    ((SaveAccess bk ToStr s data).1.client = s.client ∧
     (SaveAccess bk ToStr s data).1.authorize = s.authorize ∧
     (SaveAccess bk ToStr s data).1.access = s.access ∧
     (SaveAccess bk ToStr s data).1.refresh = s.refresh ∧
     (SaveAccess bk ToStr s data).1.expires = s.expires) ∧
    (bk Stmt.Begin = false → refreshInsertFails bk s data = false →
      (SaveAccess bk ToStr s data).2 = some (Err.New "data.Client must not be nil")) ∧
    (bk Stmt.Begin = false → refreshInsertFails bk s data = true →
      ∃ cause, (SaveAccess bk ToStr s data).2 = some (Err.Wrap cause "saveRefresh err")) := by
  cases hb : bk Stmt.Begin
  · cases h1 : refreshInsertFails bk s data
    · rw [SaveAccess_path_nil bk ToStr s data hb h1 hc]
      simp
    · obtain ⟨cause, he⟩ := SaveAccess_path_refresh bk ToStr s data hb h1
      rw [he]
      simp
  · rw [SaveAccess_path_begin bk ToStr s data hb]
    simp

/-- Witness of C7 (amended): a record without client and with a new refresh token. -/
theorem SaveAccess_nil_client_error_witness :
    (SaveAccess reliable sampleToStr store2 { accessNoClient with RefreshToken := "r9" }).2 =
      some (Err.New "data.Client must not be nil") :=
  (SaveAccess_nil_client_error reliable sampleToStr store2
    { accessNoClient with RefreshToken := "r9" } rfl).2.2.1 rfl rfl

/-- Counterexample to C7 as stated: `accessNoClient` has a nil client and the refresh
token `r1`, which `store2` already indexes; `SaveAccess` answers the duplicate-key error
of the refresh insert, not "data.Client must not be nil". -/
theorem nil_client_duplicate_refresh_counterexample :
    accessNoClient.Client = none ∧
    store2.refresh.map (fun r => r.refresh_token) = ["r1"] ∧
    (SaveAccess reliable sampleToStr store2 accessNoClient).2 =
      some (Err.Wrap Err.Duplicate "saveRefresh err") ∧
    (SaveAccess reliable sampleToStr store2 accessNoClient).2 ≠
      some (Err.New "data.Client must not be nil") := by
  refine ⟨rfl, rfl, rfl, ?_⟩
  have h : (SaveAccess reliable sampleToStr store2 accessNoClient).2 =
      some (Err.Wrap Err.Duplicate "saveRefresh err") := rfl
  rw [h]
  decide

/-- C8, as amended: `SaveAccess` registers the expiry entry through `s.db` before it
commits.  When every step before the commit passes and the commit fails, the call
returns the commit error, the expires table has gained the entry of the access token,
and access table and refresh index are the ones before the call. -/
theorem SaveAccess_commit_failure_keeps_expiry (bk : Backend) (ToStr : Iface → String)
    (s : Storage) (data : AccessData) (c : Client)
    (hb : bk Stmt.Begin = false)
    (h1 : refreshInsertFails bk s data = false)
    (hc : data.Client = some c)
    (h2 : accessInsertFails bk s data = false)
    (h3 : bk (Stmt.InsertExpires data.AccessToken) = false)
    (h4 : bk Stmt.Commit = true) :
    (SaveAccess bk ToStr s data).2 = some (Err.Wrap Err.Driver "AddExpireAtData commit err") ∧
    (SaveAccess bk ToStr s data).1.expires = s.expires ++
      [{ id := s.auto_increment, code_or_token := data.AccessToken,
         expires_at := data.ExpireAt }] ∧
    (SaveAccess bk ToStr s data).1.access = s.access ∧
    (SaveAccess bk ToStr s data).1.refresh = s.refresh := by
  rw [SaveAccess_path_commit bk ToStr s data c hb h1 hc h2 h3 h4]
  simp

/-- Witness of C8 (amended): `accessA` saved while the commit fails. -/
theorem SaveAccess_commit_failure_keeps_expiry_witness :
    (SaveAccess commitFails sampleToStr store1 accessA).1.expires =
      [{ id := 1, code_or_token := "a1", expires_at := 4600 }] ∧
    (SaveAccess commitFails sampleToStr store1 accessA).1.access = [] :=
  have h := SaveAccess_commit_failure_keeps_expiry commitFails sampleToStr store1 accessA
    client1 rfl rfl rfl rfl rfl rfl
  ⟨h.2.1, h.2.2.1⟩

/-- Counterexample to C8 as stated: the commit of `SaveAccess` fails, the access table
stays empty, and yet the expires table holds an entry for the access token `a1`. -/
theorem expiry_before_commit_counterexample :
    (SaveAccess commitFails sampleToStr store1 accessA).2 =
      some (Err.Wrap Err.Driver "AddExpireAtData commit err") ∧
    store1.expires = [] ∧
    (SaveAccess commitFails sampleToStr store1 accessA).1.expiryKeys = ["a1"] ∧
    (SaveAccess commitFails sampleToStr store1 accessA).1.tokens = [] := by
  refine ⟨rfl, rfl, rfl, rfl⟩

/-! ## Rotation chain -/

theorem find_filter_of_ne {α : Type} (key : α → String) (k k2 : String) (l : List α)
    (h : k2 ≠ k) :
    (l.filter (fun r => key r != k)).find? (fun r => key r == k2) =
      l.find? (fun r => key r == k2) := by
  induction l with
  | nil => rfl
  | cons x xs ih =>
    by_cases hx : key x = k
    · have h2 : ¬ key x = k2 := fun e => h (e ▸ hx)
      simp [List.filter_cons, List.find?_cons, hx, ih, h.symm]
    · by_cases h2 : key x = k2
      · simp [List.filter_cons, List.find?_cons, hx, h2, h]
      · simp [List.filter_cons, List.find?_cons, hx, h2, ih]

theorem RemoveAccess_ok (bk : Backend) (s : Storage) (token : String)
    (h : (RemoveAccess bk s token).2 = none) :
    RemoveAccess bk s token =
      ({ s with
          access := s.access.filter (fun r => r.access_token != token),
          expires := s.expires.filter (fun r => r.code_or_token != token) }, none) := by
  revert h
  cases h1 : bk (Stmt.DeleteAccess token) <;> cases h2 : bk (Stmt.DeleteExpires token) <;>
    simp [RemoveAccess, RemoveExpireAtData, h1, h2]

theorem LoadAccess_missing (bk : Backend) (s : Storage) (now : Int) (depth : Nat)
    (token : String)
    (h : s.access.find? (fun r => r.access_token == token) = none) :
    ∃ err, LoadAccess bk s now (depth + 1) token = some (Except.error err) := by
  cases hb : bk (Stmt.SelectAccess token)
  · exact ⟨Err.ErrNotFound, by simp only [LoadAccess, hb, Bool.false_eq_true, ↓reduceIte, h]⟩
  · exact ⟨Err.Wrap Err.Driver "LoadAccess err", by simp only [LoadAccess, hb, ↓reduceIte]⟩

theorem LoadAccess_found (bk : Backend) (s : Storage) (now : Int) (depth : Nat)
    (token : String) (r : AccessRow) (client : Client)
    (hsel : bk (Stmt.SelectAccess token) = false)
    (hrow : s.access.find? (fun x => x.access_token == token) = some r)
    (hclient : GetClient bk s r.client = Except.ok client) :
    LoadAccess bk s now (depth + 1) token =
      match LoadAccess bk s now depth r.prev_access_token with
      | none => none
      | some prevAccess =>
        some (Except.ok
          { Client := some client,
            AuthorizeData := (LoadAuthorize bk s now r.code).toOption,
            AccessData := prevAccess.toOption, AccessToken := r.access_token,
            RefreshToken := r.refresh_token, ExpiresIn := r.expires_in,
            Scope := r.scope, RedirectUri := r.redirect_uri,
            CreatedAt := r.created_at, UserData := Iface.str r.extra }) := by
  simp only [LoadAccess, hsel, Bool.false_eq_true, ↓reduceIte, hrow, hclient]

theorem LoadAccess_ok_fields (bk : Backend) (s : Storage) (now : Int) (depth : Nat)
    (token : String) (r : AccessRow) (a : AccessData)
    (hrow : s.access.find? (fun x => x.access_token == token) = some r)
    (h : LoadAccess bk s now depth token = some (Except.ok a)) :
    a.AccessToken = r.access_token ∧ a.RefreshToken = r.refresh_token ∧
    a.ExpiresIn = r.expires_in ∧ a.Scope = r.scope ∧ a.RedirectUri = r.redirect_uri ∧
    a.CreatedAt = r.created_at ∧ a.UserData = Iface.str r.extra := by
  cases depth with
  | zero => simp [LoadAccess] at h
  | succ d =>
    cases hb : bk (Stmt.SelectAccess token)
    swap
    · simp [LoadAccess, hb] at h
    cases hc : GetClient bk s r.client with
    | error e => simp [LoadAccess, hb, hrow, hc] at h
    | ok client =>
      rw [LoadAccess_found bk s now d token r client hb hrow hc] at h
      cases hp : LoadAccess bk s now d r.prev_access_token with
      | none => simp [hp] at h
      | some p =>
        simp only [hp, Option.some.injEq, Except.ok.injEq] at h
        subst h
        simp

theorem LoadAccess_prev_missing (bk : Backend) (t : Storage) (now : Int) (depth : Nat)
    (rowB : AccessRow) (clientB : Client)
    (hB : t.access.find? (fun r => r.access_token == rowB.access_token) = some rowB)
    (hgone : t.access.find? (fun r => r.access_token == rowB.prev_access_token) = none)
    (hsel : bk (Stmt.SelectAccess rowB.access_token) = false)
    (hclient : GetClient bk t rowB.client = Except.ok clientB) :
    ∃ b, LoadAccess bk t now (depth + 2) rowB.access_token = some (Except.ok b) ∧
      b.AccessData = none ∧ b.AccessToken = rowB.access_token := by
  obtain ⟨err, hmiss⟩ := LoadAccess_missing bk t now depth rowB.prev_access_token hgone
  rw [LoadAccess_found bk t now (depth + 1) rowB.access_token rowB clientB hsel hB hclient,
    hmiss]
  exact ⟨_, rfl, rfl, rfl⟩

/-- C5, as amended: let A and B be two stored access records, B stored with
`prev_access_token` equal to the token of A, and let the lookup of B itself resolve (its
select is answered and its client is registered).  Whenever `LoadAccess` of A returns a
record, that record carries the scalar columns of A and `LoadAccess` of B returns a
record whose previous access data is exactly it.  After a successful `RemoveAccess` of
A, and in every database that still stores B with its client registered and stores no
record under the token of A, `LoadAccess` of B returns a record whose previous access
data is nil. -/
theorem LoadAccess_rotation_chain (bk : Backend) (s : Storage) (now : Int)
    (rowA rowB : AccessRow) (clientB : Client)
    (hA : s.access.find? (fun r => r.access_token == rowA.access_token) = some rowA)
    (hB : s.access.find? (fun r => r.access_token == rowB.access_token) = some rowB)
    (hprev : rowB.prev_access_token = rowA.access_token)
    (hne : rowB.access_token ≠ rowA.access_token)
    (hsel : bk (Stmt.SelectAccess rowB.access_token) = false)
    (hclient : GetClient bk s rowB.client = Except.ok clientB) :
    (∀ (depth : Nat) (a : AccessData),
      LoadAccess bk s now depth rowA.access_token = some (Except.ok a) →
      (a.AccessToken = rowA.access_token ∧ a.RefreshToken = rowA.refresh_token ∧
        a.ExpiresIn = rowA.expires_in ∧ a.Scope = rowA.scope ∧
        a.RedirectUri = rowA.redirect_uri ∧ a.CreatedAt = rowA.created_at ∧
        a.UserData = Iface.str rowA.extra) ∧
      ∃ b, LoadAccess bk s now (depth + 1) rowB.access_token = some (Except.ok b) ∧
        b.AccessData = some a ∧ b.AccessToken = rowB.access_token) ∧
    (∀ (bk2 : Backend) (depth : Nat), (RemoveAccess bk2 s rowA.access_token).2 = none →
      ∃ b, LoadAccess bk (RemoveAccess bk2 s rowA.access_token).1 now (depth + 2)
          rowB.access_token = some (Except.ok b) ∧
        b.AccessData = none ∧ b.AccessToken = rowB.access_token) ∧
    (∀ (t : Storage) (registered : Client) (depth : Nat),
      t.access.find? (fun r => r.access_token == rowB.access_token) = some rowB →
      t.access.find? (fun r => r.access_token == rowA.access_token) = none →
      GetClient bk t rowB.client = Except.ok registered →
      ∃ b, LoadAccess bk t now (depth + 2) rowB.access_token = some (Except.ok b) ∧
        b.AccessData = none ∧ b.AccessToken = rowB.access_token) := by
  refine ⟨?_, ?_, ?_⟩
  · intro depth a ha
    refine ⟨LoadAccess_ok_fields bk s now depth rowA.access_token rowA a hA ha, ?_⟩
    rw [LoadAccess_found bk s now depth rowB.access_token rowB clientB hsel hB hclient,
      hprev, ha]
    exact ⟨_, rfl, rfl, rfl⟩
  · intro bk2 depth hrm
    rw [RemoveAccess_ok bk2 s rowA.access_token hrm]
    have hB2 : (s.access.filter (fun r => r.access_token != rowA.access_token)).find?
        (fun r => r.access_token == rowB.access_token) = some rowB := by
      rw [find_filter_of_ne (fun r : AccessRow => r.access_token) _ _ _ hne]
      exact hB
    have hA2 : (s.access.filter (fun r => r.access_token != rowA.access_token)).find?
        (fun r => r.access_token == rowB.prev_access_token) = none := by
      rw [hprev]
      exact find_filter_bne (fun r : AccessRow => r.access_token) _ _
    have hcl : GetClient bk
        { s with
          access := s.access.filter (fun r => r.access_token != rowA.access_token),
          expires := s.expires.filter (fun r => r.code_or_token != rowA.access_token) }
        rowB.client = Except.ok clientB := by
      rw [← hclient]
      exact GetClient_congr bk _ s _ rfl
    exact LoadAccess_prev_missing bk _ now depth rowB clientB hB2 hA2 hsel hcl
  · intro t registered depth hBt hgone hcl
    exact LoadAccess_prev_missing bk t now depth rowB registered hBt (by rw [hprev]; exact hgone)
      hsel hcl

/-- Witness of C5 (amended): `accessB` rotates `accessA` out, both of `client1`. -/
theorem LoadAccess_rotation_chain_witness :
    (∃ b, LoadAccess reliable (SaveAccess reliable sampleToStr store2 accessB).1 2500 3 "b1" =
        some (Except.ok b) ∧ (b.AccessData.map (fun a => a.AccessToken)) = some "a1") ∧
    (∃ b, LoadAccess reliable
        (RemoveAccess reliable (SaveAccess reliable sampleToStr store2 accessB).1 "a1").1
        2500 3 "b1" = some (Except.ok b) ∧ b.AccessData = none) :=
  have h := LoadAccess_rotation_chain reliable
    (SaveAccess reliable sampleToStr store2 accessB).1 2500
    (rowOfAccess sampleToStr "c1" accessA) (rowOfAccess sampleToStr "c1" accessB)
    registered1 rfl rfl rfl (by decide) rfl rfl
  ⟨by
    obtain ⟨hf, b, hb, hprev, _⟩ := h.1 2
      { Client := some registered1, AuthorizeData := none, AccessData := none,
        AccessToken := "a1", RefreshToken := "r1", ExpiresIn := 3600, Scope := "read",
        RedirectUri := "http://x/cb", CreatedAt := 1000, UserData := Iface.str "<nil>" } rfl
    exact ⟨b, hb, by rw [hprev]; rfl⟩,
   by
    obtain ⟨b, hb, hnone, _⟩ := h.2.1 reliable 1 rfl
    exact ⟨b, hb, hnone⟩⟩

/-- Counterexample to C5 as stated: `accessB2` was saved with `accessA` as its previous
access data and `accessA` is loadable, but the client of `accessB2` has been removed:
`LoadAccess` of `b1` answers `ErrNotFound` instead of a record, before and after
`RemoveAccess` of `a1`. -/
theorem orphan_access_not_found_counterexample :
    (run sampleToStr Storage.empty callsOrphanAccess).access.map
      (fun r => (r.access_token, r.prev_access_token)) = [("a1", ""), ("b1", "a1")] ∧
    (∃ a, LoadAccess reliable (run sampleToStr Storage.empty callsOrphanAccess) 2500 3 "a1" =
      some (Except.ok a)) ∧
    (∀ depth : Nat,
      LoadAccess reliable (run sampleToStr Storage.empty callsOrphanAccess) 2500 (depth + 1)
        "b1" = some (Except.error Err.ErrNotFound)) ∧
    (RemoveAccess reliable (run sampleToStr Storage.empty callsOrphanAccess) "a1").2 = none ∧
    (∀ depth : Nat,
      LoadAccess reliable
        (RemoveAccess reliable (run sampleToStr Storage.empty callsOrphanAccess) "a1").1
        2500 (depth + 1) "b1" = some (Except.error Err.ErrNotFound)) := by
  refine ⟨rfl, ⟨_, rfl⟩, fun depth => rfl, rfl, fun depth => rfl⟩

/-! ## What each call does to the tables -/

theorem SaveAuthorize_ok (bk : Backend) (ToStr : Iface → String) (s : Storage)
    (data : AuthorizeData) (h : (SaveAuthorize bk ToStr s data).2 = none) :
    ∃ c, data.Client = some c ∧
      SaveAuthorize bk ToStr s data =
        ({ s with
            authorize := s.authorize ++
              [{ client := c.Id, code := data.Code, expires_in := data.ExpiresIn,
                 scope := data.Scope, redirect_uri := data.RedirectUri, state := data.State,
                 created_at := data.CreatedAt, extra := ToStr data.UserData }],
            expires := s.expires ++
              [{ id := s.auto_increment, code_or_token := data.Code,
                 expires_at := data.ExpireAt }],
            auto_increment := s.auto_increment + 1 }, none) := by
  cases hc : data.Client with
  | none => simp [SaveAuthorize, hc] at h
  | some c =>
    refine ⟨c, rfl, ?_⟩
    revert h
    cases h1 : bk (Stmt.InsertAuthorize data.Code) <;>
    cases h2 : s.authorize.any (fun r => r.code == data.Code) <;>
    cases h3 : bk (Stmt.InsertExpires data.Code) <;>
    simp only [SaveAuthorize, hc, insertErr, h1, h2, h3, AddExpireAtData, Bool.false_eq_true,
      ↓reduceIte, reduceCtorEq, false_implies, implies_true]

theorem SaveAccess_error_tables (bk : Backend) (ToStr : Iface → String) (s : Storage)
    (data : AccessData) (h : (SaveAccess bk ToStr s data).2 ≠ none) :
    (SaveAccess bk ToStr s data).1.access = s.access ∧
    (SaveAccess bk ToStr s data).1.refresh = s.refresh ∧
    (SaveAccess bk ToStr s data).1.authorize = s.authorize ∧
    (SaveAccess bk ToStr s data).1.client = s.client := by
  cases hb : bk Stmt.Begin
  swap
  · rw [SaveAccess_path_begin bk ToStr s data hb]; simp
  cases h1 : refreshInsertFails bk s data
  swap
  · obtain ⟨err, he⟩ := SaveAccess_path_refresh bk ToStr s data hb h1
    rw [he]; simp
  cases hc : data.Client with
  | none => rw [SaveAccess_path_nil bk ToStr s data hb h1 hc]; simp
  | some c =>
    cases h2 : accessInsertFails bk s data
    swap
    · obtain ⟨err, he⟩ := SaveAccess_path_access bk ToStr s data c hb h1 hc h2
      rw [he]; simp
    cases h3 : bk (Stmt.InsertExpires data.AccessToken)
    swap
    · rw [SaveAccess_path_expires bk ToStr s data c hb h1 hc h2 h3]; simp
    cases h4 : bk Stmt.Commit
    swap
    · rw [SaveAccess_path_commit bk ToStr s data c hb h1 hc h2 h3 h4]; simp
    exact absurd (by rw [SaveAccess_path_success bk ToStr s data c hb h1 hc h2 h3 h4]) h

theorem mem_map_append_singleton {α : Type} (key : α → String) (l : List α) (a : α)
    (x : String) : x ∈ (l ++ [a]).map key ↔ (x ∈ l.map key ∨ x = key a) := by
  simp [List.map_append]

theorem mem_map_filter_bne {α : Type} (key : α → String) (k : String) (l : List α)
    (x : String) :
    x ∈ (l.filter (fun r => key r != k)).map key ↔ (x ∈ l.map key ∧ x ≠ k) := by
  simp only [List.mem_map, List.mem_filter, bne_iff_ne, ne_eq]
  constructor
  · rintro ⟨a, ⟨ha, hk⟩, rfl⟩
    exact ⟨⟨a, ha, rfl⟩, hk⟩
  · rintro ⟨⟨a, ha, rfl⟩, hk⟩
    exact ⟨a, ⟨ha, hk⟩, rfl⟩

theorem not_mem_map_of_any_false {α : Type} (key : α → String) (k : String) (l : List α)
    (h : (!(l.any (fun r => key r == k))) = true) : k ∉ l.map key := by
  intro hm
  obtain ⟨a, ha, hk⟩ := List.mem_map.mp hm
  have : l.any (fun r => key r == k) = true :=
    List.any_eq_true.mpr ⟨a, ha, by simp [hk]⟩
  simp [this] at h

/-! ## Expiry index and stored records -/

theorem ExpirySynchronized_step (bk : Backend) (ToStr : Iface → String) (s : Storage)
    (c : Call) (hs : ExpirySynchronized s) (hok : (c.exec bk ToStr s).2 = none)
    (hown : c.ownKind s = true) : ExpirySynchronized (c.exec bk ToStr s).1 := by
  intro x
  have hx := hs x
  cases c with
  | CreateClient cl =>
    have : (CreateClient bk ToStr s cl).1.expires = s.expires ∧
        (CreateClient bk ToStr s cl).1.authorize = s.authorize ∧
        (CreateClient bk ToStr s cl).1.access = s.access := by
      unfold CreateClient; split <;> simp
    simp only [Call.exec, Storage.expiryKeys, Storage.codes, Storage.tokens, this.1, this.2.1,
      this.2.2] at hx ⊢
    exact hx
  | UpdateClient cl =>
    have : (UpdateClient bk ToStr s cl).1.expires = s.expires ∧
        (UpdateClient bk ToStr s cl).1.authorize = s.authorize ∧
        (UpdateClient bk ToStr s cl).1.access = s.access := by
      unfold UpdateClient; split <;> simp
    simp only [Call.exec, Storage.expiryKeys, Storage.codes, Storage.tokens, this.1, this.2.1,
      this.2.2] at hx ⊢
    exact hx
  | RemoveClient id =>
    have : (RemoveClient bk s id).1.expires = s.expires ∧
        (RemoveClient bk s id).1.authorize = s.authorize ∧
        (RemoveClient bk s id).1.access = s.access := by
      unfold RemoveClient; split <;> simp
    simp only [Call.exec, Storage.expiryKeys, Storage.codes, Storage.tokens, this.1, this.2.1,
      this.2.2] at hx ⊢
    exact hx
  | RemoveRefresh r =>
    have : (RemoveRefresh bk s r).1.expires = s.expires ∧
        (RemoveRefresh bk s r).1.authorize = s.authorize ∧
        (RemoveRefresh bk s r).1.access = s.access := by
      unfold RemoveRefresh; split <;> simp
    simp only [Call.exec, Storage.expiryKeys, Storage.codes, Storage.tokens, this.1, this.2.1,
      this.2.2] at hx ⊢
    exact hx
  | SaveAuthorize data =>
    obtain ⟨cl, _, heq⟩ := SaveAuthorize_ok bk ToStr s data hok
    simp only [Call.exec, heq, Storage.expiryKeys, Storage.codes, Storage.tokens,
      mem_map_append_singleton] at hx ⊢
    rw [hx]
    tauto
  | SaveAccess data =>
    obtain ⟨cl, _, _, _, heq⟩ := SaveAccess_ok bk ToStr s data hok
    simp only [Call.exec, heq, Storage.expiryKeys, Storage.codes, Storage.tokens,
      mem_map_append_singleton, rowOfAccess] at hx ⊢
    rw [hx]
    tauto
  | RemoveAuthorize code =>
    have hnot : code ∉ s.access.map (fun r => r.access_token) :=
      not_mem_map_of_any_false (fun r : AccessRow => r.access_token) code s.access hown
    have heq := RemoveAuthorize_ok bk s code hok
    simp only [Call.exec, heq, Storage.expiryKeys, Storage.codes, Storage.tokens] at hx ⊢
    rw [mem_map_filter_bne (fun r : ExpiresRow => r.code_or_token),
      mem_map_filter_bne (fun r : AuthorizeRow => r.code), hx]
    constructor
    · rintro ⟨h1 | h1, h2⟩
      · exact Or.inl ⟨h1, h2⟩
      · exact Or.inr h1
    · rintro (⟨h1, h2⟩ | h1)
      · exact ⟨Or.inl h1, h2⟩
      · exact ⟨Or.inr h1, fun e => hnot (e ▸ h1)⟩
  | RemoveAccess token =>
    have hnot : token ∉ s.authorize.map (fun r => r.code) :=
      not_mem_map_of_any_false (fun r : AuthorizeRow => r.code) token s.authorize hown
    have heq := RemoveAccess_ok bk s token hok
    simp only [Call.exec, heq, Storage.expiryKeys, Storage.codes, Storage.tokens] at hx ⊢
    rw [mem_map_filter_bne (fun r : ExpiresRow => r.code_or_token),
      mem_map_filter_bne (fun r : AccessRow => r.access_token), hx]
    constructor
    · rintro ⟨h1 | h1, h2⟩
      · exact Or.inl h1
      · exact Or.inr ⟨h1, h2⟩
    · rintro (h1 | ⟨h1, h2⟩)
      · exact ⟨Or.inl h1, fun e => hnot (e ▸ h1)⟩
      · exact ⟨Or.inr h1, h2⟩

theorem ExpirySynchronized_run (ToStr : Iface → String) :
    ∀ (calls : List (Backend × Call)) (s : Storage), ExpirySynchronized s →
      allSucceed ToStr s calls = true → allCalls Call.ownKind ToStr s calls = true →
      ExpirySynchronized (run ToStr s calls)
  | [], s, hs, _, _ => hs
  | (bk, c) :: rest, s, hs, hok, hown => by
    simp only [allSucceed, Bool.and_eq_true, Option.isNone_iff_eq_none] at hok
    simp only [allCalls, Bool.and_eq_true] at hown
    exact ExpirySynchronized_run ToStr rest _
      (ExpirySynchronized_step bk ToStr s c hs hok.1 hown.1) hok.2 hown.2

/-- C9, as amended: in every database reached from the empty one by successful calls in
which no `RemoveAuthorize` is given the token of a stored access record and no
`RemoveAccess` the code of a stored authorization record, a string is the key of an expiry
entry exactly when it is the code of a stored authorization record or the token of a
stored access record. -/
theorem expiry_index_synchronized (ToStr : Iface → String) (calls : List (Backend × Call))
    (hok : allSucceed ToStr Storage.empty calls = true)
    (hown : allCalls Call.ownKind ToStr Storage.empty calls = true) :
    ∀ x : String, x ∈ (run ToStr Storage.empty calls).expiryKeys ↔
      (x ∈ (run ToStr Storage.empty calls).codes ∨
        x ∈ (run ToStr Storage.empty calls).tokens) :=
  ExpirySynchronized_run ToStr calls Storage.empty
    (fun x => by simp [Storage.empty, Storage.expiryKeys, Storage.codes, Storage.tokens])
    hok hown

/-- Witness of C9 (amended): an authorization record and an access record under different
strings, the code removed again; read at the token `a1` and at the code `x`. -/
theorem expiry_index_synchronized_witness :
    (run sampleToStr Storage.empty callsOwnKeys).expiryKeys = ["a1"] ∧
    ("a1" ∈ (run sampleToStr Storage.empty callsOwnKeys).expiryKeys ↔
      ("a1" ∈ (run sampleToStr Storage.empty callsOwnKeys).codes ∨
        "a1" ∈ (run sampleToStr Storage.empty callsOwnKeys).tokens)) ∧
    ("x" ∈ (run sampleToStr Storage.empty callsOwnKeys).expiryKeys ↔
      ("x" ∈ (run sampleToStr Storage.empty callsOwnKeys).codes ∨
        "x" ∈ (run sampleToStr Storage.empty callsOwnKeys).tokens)) :=
  ⟨rfl, expiry_index_synchronized sampleToStr callsOwnKeys rfl rfl "a1",
   expiry_index_synchronized sampleToStr callsOwnKeys rfl rfl "x"⟩

/-- Counterexample to C9 as stated: an authorization record and an access record are
saved under the same string `x` and `RemoveAuthorize` of `x` succeeds; the access record
`x` is still stored and the expires table has no entry left for it. -/
theorem shared_key_expiry_counterexample :
    allSucceed sampleToStr Storage.empty callsSharedKey = true ∧
    (run sampleToStr Storage.empty callsSharedKey).tokens = ["x"] ∧
    (run sampleToStr Storage.empty callsSharedKey).expiryKeys = [] ∧
    ¬ ExpirySynchronized (run sampleToStr Storage.empty callsSharedKey) := by
  refine ⟨rfl, rfl, rfl, ?_⟩
  intro h
  have h1 := (h "x").mpr (Or.inr (by decide))
  have h2 : (run sampleToStr Storage.empty callsSharedKey).expiryKeys = [] := rfl
  rw [h2] at h1
  cases h1

/-! ## The chain of previous access tokens -/

theorem exists_rank_bound (rank : String → Nat) :
    ∀ l : List AccessRow, ∃ m, ∀ r ∈ l, rank r.access_token ≤ m
  | [] => ⟨0, fun r hr => by cases hr⟩
  | x :: xs => by
    obtain ⟨m, hm⟩ := exists_rank_bound rank xs
    refine ⟨max m (rank x.access_token), fun r hr => ?_⟩
    rcases List.mem_cons.mp hr with rfl | h
    · exact le_max_right _ _
    · exact le_trans (hm r h) (le_max_left _ _)

theorem ChainRanked_of_subset (s t : Storage) (hsub : ∀ r ∈ t.access, r ∈ s.access)
    (hs : ChainRanked s) : ChainRanked t := by
  obtain ⟨rank, h⟩ := hs
  exact ⟨rank, fun r hr r2 hr2 he => h r (hsub r hr) r2 (hsub r2 hr2) he⟩

theorem ChainRanked_append (s t : Storage) (row : AccessRow)
    (hacc : t.access = s.access ++ [row])
    (hself : row.access_token ≠ row.prev_access_token)
    (hnew : ∀ r ∈ s.access, r.prev_access_token ≠ row.access_token)
    (hs : ChainRanked s) : ChainRanked t := by
  obtain ⟨rank, h⟩ := hs
  obtain ⟨m, hm⟩ := exists_rank_bound rank s.access
  refine ⟨fun x => if x = row.access_token then m + 1 else rank x, ?_⟩
  intro r hr r2 hr2 he
  rw [hacc] at hr hr2
  rcases List.mem_append.mp hr with hr | hr
  · have hp : r.prev_access_token ≠ row.access_token := hnew r hr
    rcases List.mem_append.mp hr2 with hr2 | hr2
    · have h2 : r2.access_token ≠ row.access_token := fun e => hp (he ▸ e)
      by_cases h1 : r.access_token = row.access_token
      · simp only [h1, h2, ↓reduceIte]
        exact Nat.lt_succ_of_le (hm r2 hr2)
      · simp only [h1, h2, ↓reduceIte]
        exact h r hr r2 hr2 he
    · have : r2 = row := by simpa using hr2
      subst this
      exact absurd he.symm hp
  · have : r = row := by simpa using hr
    subst this
    rcases List.mem_append.mp hr2 with hr2 | hr2
    · have h2 : r2.access_token ≠ r.access_token := fun e => hself (e.symm.trans he)
      simp only [h2, ↓reduceIte]
      exact Nat.lt_succ_of_le (hm r2 hr2)
    · have : r2 = r := by simpa using hr2
      subst this
      exact absurd he hself

theorem ChainRanked_step (bk : Backend) (ToStr : Iface → String) (s : Storage) (c : Call)
    (hs : ChainRanked s) (hord : c.issuanceOrder s = true) :
    ChainRanked (c.exec bk ToStr s).1 := by
  cases c with
  | CreateClient cl =>
    refine ChainRanked_of_subset s _ (fun r hr => ?_) hs
    have : (CreateClient bk ToStr s cl).1.access = s.access := by
      unfold CreateClient; split <;> simp
    simpa [Call.exec, this] using hr
  | UpdateClient cl =>
    refine ChainRanked_of_subset s _ (fun r hr => ?_) hs
    have : (UpdateClient bk ToStr s cl).1.access = s.access := by
      unfold UpdateClient; split <;> simp
    simpa [Call.exec, this] using hr
  | RemoveClient id =>
    refine ChainRanked_of_subset s _ (fun r hr => ?_) hs
    have : (RemoveClient bk s id).1.access = s.access := by
      unfold RemoveClient; split <;> simp
    simpa [Call.exec, this] using hr
  | RemoveRefresh rt =>
    refine ChainRanked_of_subset s _ (fun r hr => ?_) hs
    have : (RemoveRefresh bk s rt).1.access = s.access := by
      unfold RemoveRefresh; split <;> simp
    simpa [Call.exec, this] using hr
  | SaveAuthorize data =>
    refine ChainRanked_of_subset s _ (fun r hr => ?_) hs
    have : (SaveAuthorize bk ToStr s data).1.access = s.access := by
      cases hc : data.Client <;>
      cases h1 : bk (Stmt.InsertAuthorize data.Code) <;>
      cases h2 : s.authorize.any (fun r => r.code == data.Code) <;>
      cases h3 : bk (Stmt.InsertExpires data.Code) <;>
      simp only [SaveAuthorize, hc, insertErr, h1, h2, h3, AddExpireAtData, Bool.false_eq_true,
        ↓reduceIte]
    simpa [Call.exec, this] using hr
  | RemoveAuthorize code =>
    refine ChainRanked_of_subset s _ (fun r hr => ?_) hs
    have : (RemoveAuthorize bk s code).1.access = s.access := by
      cases h1 : bk (Stmt.DeleteAuthorize code) <;>
      cases h2 : bk (Stmt.DeleteExpires code) <;>
      simp only [RemoveAuthorize, RemoveExpireAtData, h1, h2, Bool.false_eq_true, ↓reduceIte]
    simpa [Call.exec, this] using hr
  | RemoveAccess token =>
    refine ChainRanked_of_subset s _ (fun r hr => ?_) hs
    have : (RemoveAccess bk s token).1.access = s.access ∨
        (RemoveAccess bk s token).1.access =
          s.access.filter (fun r => r.access_token != token) := by
      cases h1 : bk (Stmt.DeleteAccess token) <;>
      cases h2 : bk (Stmt.DeleteExpires token) <;>
      simp only [RemoveAccess, RemoveExpireAtData, h1, h2, Bool.false_eq_true, ↓reduceIte,
        true_or, or_true]
    simp only [Call.exec] at hr
    rcases this with h | h
    · rw [h] at hr; exact hr
    · rw [h] at hr; exact (List.mem_filter.mp hr).1
  | SaveAccess data =>
    simp only [Call.exec]
    cases hres : (SaveAccess bk ToStr s data).2 with
    | some err =>
      refine ChainRanked_of_subset s _ (fun r hr => ?_) hs
      have := (SaveAccess_error_tables bk ToStr s data (by rw [hres]; simp)).1
      rw [this] at hr
      exact hr
    | none =>
      obtain ⟨cl, _, _, _, heq⟩ := SaveAccess_ok bk ToStr s data hres
      simp only [Call.issuanceOrder, Bool.and_eq_true, bne_iff_ne, ne_eq, List.all_eq_true]
        at hord
      refine ChainRanked_append s _ (rowOfAccess ToStr cl.Id data) (by rw [heq]) ?_ ?_ hs
      · exact hord.1
      · intro r hr
        exact hord.2 r hr

theorem ChainRanked_run (ToStr : Iface → String) :
    ∀ (calls : List (Backend × Call)) (s : Storage), ChainRanked s →
      allCalls Call.issuanceOrder ToStr s calls = true → ChainRanked (run ToStr s calls)
  | [], s, hs, _ => hs
  | (bk, c) :: rest, s, hs, hord => by
    simp only [allCalls, Bool.and_eq_true] at hord
    exact ChainRanked_run ToStr rest _ (ChainRanked_step bk ToStr s c hs hord.1) hord.2

theorem LoadAccess_returns_of_rank (bk : Backend) (s : Storage) (now : Int)
    (rank : String → Nat)
    (hrank : ∀ r ∈ s.access, ∀ r2 ∈ s.access,
      r2.access_token = r.prev_access_token → rank r2.access_token < rank r.access_token) :
    ∀ (n : Nat) (token : String),
      (∀ r ∈ s.access, r.access_token = token → rank token < n) →
      ∃ result, ∀ depth, n + 1 ≤ depth → LoadAccess bk s now depth token = some result := by
  intro n
  induction n with
  | zero =>
    intro token hn
    have hnone : s.access.find? (fun r => r.access_token == token) = none := by
      rw [List.find?_eq_none]
      intro r hr hp
      exact absurd (hn r hr (by simpa using hp)) (Nat.not_lt_zero _)
    cases hb : bk (Stmt.SelectAccess token)
    · refine ⟨Except.error Err.ErrNotFound, fun depth hd => ?_⟩
      obtain ⟨d, rfl⟩ : ∃ d, depth = d + 1 := ⟨depth - 1, by omega⟩
      simp only [LoadAccess, hb, Bool.false_eq_true, ↓reduceIte, hnone]
    · refine ⟨Except.error (Err.Wrap Err.Driver "LoadAccess err"), fun depth hd => ?_⟩
      obtain ⟨d, rfl⟩ : ∃ d, depth = d + 1 := ⟨depth - 1, by omega⟩
      simp only [LoadAccess, hb, ↓reduceIte]
  | succ n ih =>
    intro token hn
    cases hb : bk (Stmt.SelectAccess token)
    swap
    · refine ⟨Except.error (Err.Wrap Err.Driver "LoadAccess err"), fun depth hd => ?_⟩
      obtain ⟨d, rfl⟩ : ∃ d, depth = d + 1 := ⟨depth - 1, by omega⟩
      simp only [LoadAccess, hb, ↓reduceIte]
    cases hrow : s.access.find? (fun r => r.access_token == token) with
    | none =>
      refine ⟨Except.error Err.ErrNotFound, fun depth hd => ?_⟩
      obtain ⟨d, rfl⟩ : ∃ d, depth = d + 1 := ⟨depth - 1, by omega⟩
      simp only [LoadAccess, hb, Bool.false_eq_true, ↓reduceIte, hrow]
    | some r =>
      have hmem : r ∈ s.access := List.mem_of_find?_eq_some hrow
      have htok : r.access_token = token := by
        have := List.find?_some hrow
        simpa using this
      cases hc : GetClient bk s r.client with
      | error e =>
        refine ⟨Except.error e, fun depth hd => ?_⟩
        obtain ⟨d, rfl⟩ : ∃ d, depth = d + 1 := ⟨depth - 1, by omega⟩
        simp only [LoadAccess, hb, Bool.false_eq_true, ↓reduceIte, hrow, hc]
      | ok client =>
        have hprev : ∀ r2 ∈ s.access, r2.access_token = r.prev_access_token →
            rank r.prev_access_token < n := by
          intro r2 hr2 he
          have h1 := hrank r hmem r2 hr2 he
          have h2 := hn r hmem htok
          rw [he] at h1
          rw [htok] at h1
          omega
        obtain ⟨prevResult, hp⟩ := ih r.prev_access_token hprev
        refine ⟨Except.ok
          { Client := some client,
            AuthorizeData := (LoadAuthorize bk s now r.code).toOption,
            AccessData := prevResult.toOption, AccessToken := r.access_token,
            RefreshToken := r.refresh_token, ExpiresIn := r.expires_in,
            Scope := r.scope, RedirectUri := r.redirect_uri,
            CreatedAt := r.created_at, UserData := Iface.str r.extra }, fun depth hd => ?_⟩
        obtain ⟨d, rfl⟩ : ∃ d, depth = d + 1 := ⟨depth - 1, by omega⟩
        rw [LoadAccess_found bk s now d token r client hb hrow hc, hp d (by omega)]

/-- C10, as amended: the storage has no guard against cycles of `prev_access_token`.  In
every database reached from the empty one by calls (failed ones included) in which every
`SaveAccess` comes in issuance order, that is with a token that differs from its own
previous token and is not the previous token of any stored access record, the chain is
a backward chain: a rank on tokens goes strictly down along `prev_access_token`, so no
token is visited twice, and `LoadAccess` returns on every token, with the same result
for every large enough bound on the call depth. -/
theorem LoadAccess_returns_in_issuance_order (ToStr : Iface → String)
    (calls : List (Backend × Call))
    (hord : allCalls Call.issuanceOrder ToStr Storage.empty calls = true) :
    ChainRanked (run ToStr Storage.empty calls) ∧
    ∀ (bk : Backend) (now : Int) (token : String),
      ∃ result bound, ∀ depth, bound ≤ depth →
        LoadAccess bk (run ToStr Storage.empty calls) now depth token = some result := by
  have hchain : ChainRanked (run ToStr Storage.empty calls) :=
    ChainRanked_run ToStr calls Storage.empty
      ⟨fun _ => 0, fun r hr => by simp [Storage.empty] at hr⟩ hord
  refine ⟨hchain, fun bk now token => ?_⟩
  obtain ⟨rank, hrank⟩ := hchain
  obtain ⟨result, hres⟩ := LoadAccess_returns_of_rank bk _ now rank hrank (rank token + 1) token
    (fun _ _ _ => Nat.lt_succ_self _)
  exact ⟨result, rank token + 1 + 1, hres⟩

/-- Witness of C10 (amended): `accessA`, its rotation by `accessB`, and its removal. -/
theorem LoadAccess_returns_in_issuance_order_witness :
    (run sampleToStr Storage.empty callsRotation).tokens = ["b1"] ∧
    ∃ result bound, ∀ depth, bound ≤ depth →
      LoadAccess reliable (run sampleToStr Storage.empty callsRotation) 2500 depth "b1" =
        some result :=
  ⟨rfl, (LoadAccess_returns_in_issuance_order sampleToStr callsRotation rfl).2
    reliable 2500 "b1"⟩

/-- Counterexample to C10 as stated: `accessA` is saved, rotated out by `accessB` and
removed; then `accessA2` is saved under the token `a1` again with `accessB` as previous.
The stored chain is `a1 → b1 → a1`, and `LoadAccess` of `a1` does not return within any
bound on the call depth. -/
theorem token_reuse_cycle_counterexample :
    allSucceed sampleToStr Storage.empty callsCycle = true ∧
    (run sampleToStr Storage.empty callsCycle).access.map
      (fun r => (r.access_token, r.prev_access_token)) = [("b1", "a1"), ("a1", "b1")] ∧
    ∀ depth : Nat,
      LoadAccess reliable (run sampleToStr Storage.empty callsCycle) 2500 depth "a1" = none := by
  refine ⟨rfl, rfl, ?_⟩
  have hboth : ∀ depth : Nat,
      LoadAccess reliable (run sampleToStr Storage.empty callsCycle) 2500 depth "a1" = none ∧
      LoadAccess reliable (run sampleToStr Storage.empty callsCycle) 2500 depth "b1" = none := by
    intro depth
    induction depth with
    | zero => exact ⟨rfl, rfl⟩
    | succ d ih =>
      constructor
      · rw [LoadAccess_found reliable (run sampleToStr Storage.empty callsCycle) 2500 d "a1"
          (rowOfAccess sampleToStr "c1" accessA2) registered1 rfl rfl rfl]
        have : (rowOfAccess sampleToStr "c1" accessA2).prev_access_token = "b1" := rfl
        rw [this, ih.2]
      · rw [LoadAccess_found reliable (run sampleToStr Storage.empty callsCycle) 2500 d "b1"
          (rowOfAccess sampleToStr "c1" accessB) registered1 rfl rfl rfl]
        have : (rowOfAccess sampleToStr "c1" accessB).prev_access_token = "a1" := rfl
        rw [this, ih.1]
  exact fun depth => (hboth depth).1

end OsinMysql
